import Mathlib

set_option maxHeartbeats 1000000
set_option maxRecDepth 100000

/-! Verification of the message-storage and fanout core of the esp32-anonymous-chat
firmware: the ring-buffer message log, the snapshot cache, the SSE subscriber
registry, the batched NVS persistence and the HTTP post handler, embedded
shallowly from src/main/chat_storage.c and src/main/chat_server.c. C strings are
modelled as `List Char` (the characters strictly before the terminating NUL) and
machine integers as `Nat`/`Int` with explicit wrap-around where it matters. -/

/-- A C string: the characters strictly before the terminating NUL. -/
abbrev CStr := List Char

/-- MAX_MESSAGES (chat_storage.h:9, chat_server.c:25): ring-buffer capacity. -/
def MAX_MESSAGES : Nat := 100

/-- MAX_MESSAGE_LENGTH (chat_storage.h:10): size of the message slot, NUL included. -/
def MAX_MESSAGE_LENGTH : Nat := 150

/-- MAX_UUID_LENGTH (chat_storage.h:11): size of the uuid slot, NUL included. -/
def MAX_UUID_LENGTH : Nat := 37

/-- MAX_USERNAME_LENGTH (chat_storage.h:12): size of the username slot, NUL included
(chat_server.c uses the literal 32 for the same field). -/
def MAX_USERNAME_LENGTH : Nat := 32

/-- CACHE_VALID_TIME (chat_storage.h:15): snapshot-cache TTL in seconds. -/
def CACHE_VALID_TIME : Nat := 30

/-- MIN_MESSAGES_TO_SAVE (chat_storage.h:16): batch threshold for NVS saves. -/
def MIN_MESSAGES_TO_SAVE : Nat := 5

/-- MAX_SSE_CLIENTS (chat_server.c:29): subscriber-registry capacity. -/
def MAX_SSE_CLIENTS : Nat := 10

/-- Model of strlcpy(dst, src, size): at most size-1 characters of src are kept and
the destination is always NUL-terminated, so the stored string is the
(size-1)-character prefix of the source. -/
def strlcpy (src : CStr) (size : Nat) : CStr := src.take (size - 1)

/-- chat_message_t (chat_storage.h:19-24; identical struct in chat_server.c:37-42). -/
structure ChatMessage where
  uuid : CStr
  username : CStr
  message : CStr
  timestamp : Nat
deriving DecidableEq, Inhabited

/-- Content of a zero-initialised message slot: empty strings, timestamp 0. -/
def zeroMessage : ChatMessage := ⟨[], [], [], 0⟩

/-- chat_storage_t (chat_storage.h:27-31, chat_server.c:45-49): the slot array is a
total function read only at indices below MAX_MESSAGES. -/
structure ChatStorage where
  messages : Nat → ChatMessage
  count : Nat
  next_index : Nat

/-- The zero-initialised static chat_storage (chat_storage.c:25-28, chat_server.c:51-54). -/
def initialStorage : ChatStorage := ⟨fun _ => zeroMessage, 0, 0⟩

/-- The ring-buffer slot update shared by chat_storage_add_message
(chat_storage.c:582-596) and add_chat_message (chat_server.c:685-699): write the
message at next_index, advance next_index modulo MAX_MESSAGES, increment count
while below MAX_MESSAGES. -/
def ringInsertMsg (s : ChatStorage) (m : ChatMessage) : ChatStorage :=
  { messages := fun j => if j = s.next_index then m else s.messages j
    count := if s.count < MAX_MESSAGES then s.count + 1 else s.count
    next_index := (s.next_index + 1) % MAX_MESSAGES }

/-- The message actually stored for a given (uuid, username, message) input and
server time: each field is copied with strlcpy into its fixed-size slot
(chat_storage.c:587-590, chat_server.c:690-693). -/
def storedMessage (uuid username message : CStr) (now : Nat) : ChatMessage :=
  { uuid := strlcpy uuid MAX_UUID_LENGTH
    username := strlcpy username MAX_USERNAME_LENGTH
    message := strlcpy message MAX_MESSAGE_LENGTH
    timestamp := now }

/-- The storage mutation performed by a successful add_chat_message
(chat_server.c:684-710) and by the buffer part of chat_storage_add_message
(chat_storage.c:582-601): store the strlcpy-truncated fields with the current
server time. -/
def add_chat_message (s : ChatStorage) (uuid username message : CStr) (now : Nat) :
    ChatStorage :=
  ringInsertMsg s (storedMessage uuid username message now)

/-- Start index of a chronological read of the ring buffer
(chat_storage.c:224-227, chat_server.c:197-201): next_index when full, 0 otherwise. -/
def snapStart (s : ChatStorage) : Nat :=
  if s.count = MAX_MESSAGES then s.next_index else 0

/-- The ordered copy-out of the ring buffer performed by
chat_storage_get_messages_json (chat_storage.c:200-234) and by
get_chat_messages_json (chat_server.c:196-223): read count slots starting at
snapStart, modulo MAX_MESSAGES. -/
def snapshotMessages (s : ChatStorage) : List ChatMessage :=
  (List.range s.count).map (fun i => s.messages ((snapStart s + i) % MAX_MESSAGES))

/-- States reachable by the storage module: count within capacity, cursor within
bounds, and while the buffer is not full the cursor equals the count. -/
def StorageInv (s : ChatStorage) : Prop :=
  s.count ≤ MAX_MESSAGES ∧ s.next_index < MAX_MESSAGES ∧
    (s.count < MAX_MESSAGES → s.next_index = s.count)

theorem storageInv_initial : StorageInv initialStorage :=
  ⟨by simp [initialStorage, MAX_MESSAGES], by simp [initialStorage, MAX_MESSAGES],
    fun _ => rfl⟩

theorem count_ringInsertMsg {s : ChatStorage} (h : s.count ≤ MAX_MESSAGES)
    (m : ChatMessage) :
    (ringInsertMsg s m).count = min (s.count + 1) MAX_MESSAGES := by
  show (if s.count < MAX_MESSAGES then s.count + 1 else s.count) =
    min (s.count + 1) MAX_MESSAGES
  rw [MAX_MESSAGES] at h ⊢
  split <;> omega

theorem next_ringInsertMsg (s : ChatStorage) (m : ChatMessage) :
    (ringInsertMsg s m).next_index = (s.next_index + 1) % MAX_MESSAGES := rfl

theorem length_snapshotMessages (s : ChatStorage) :
    (snapshotMessages s).length = s.count := by
  simp [snapshotMessages]

theorem getElem_snapshotMessages (s : ChatStorage) (i : Nat)
    (h : i < (snapshotMessages s).length) :
    (snapshotMessages s)[i] = s.messages ((snapStart s + i) % MAX_MESSAGES) := by
  simp only [snapshotMessages, List.getElem_map, List.getElem_range]

/-- The slot update performed by ringInsertMsg, as a rewriting equation. -/
theorem messages_ringInsertMsg (s : ChatStorage) (m : ChatMessage) (j : Nat) :
    (ringInsertMsg s m).messages j = if j = s.next_index then m else s.messages j := rfl

/-- Key step lemma: inserting into a reachable ring buffer appends the new message
to the chronological snapshot, dropping the oldest entry exactly when full. -/
theorem snapshot_ringInsertMsg {s : ChatStorage} (h : StorageInv s) (m : ChatMessage) :
    snapshotMessages (ringInsertMsg s m) =
      (snapshotMessages s ++ [m]).drop (s.count + 1 - MAX_MESSAGES) := by
  obtain ⟨h1, h2, h3⟩ := h
  have h100 : MAX_MESSAGES = 100 := rfl
  have h2' : s.next_index < 100 := by omega
  by_cases hfull : s.count = MAX_MESSAGES
  · -- full buffer: the oldest message (at next_index) is overwritten
    have hlen : (snapshotMessages s).length = 100 := by
      rw [length_snapshotMessages, hfull, h100]
    have hdrop : s.count + 1 - MAX_MESSAGES = 1 := by omega
    rw [hdrop, List.drop_append_of_le_length (by omega)]
    have hcount' : (ringInsertMsg s m).count = 100 := by
      rw [count_ringInsertMsg h1]; omega
    have hstart' : snapStart (ringInsertMsg s m) = (s.next_index + 1) % 100 := by
      simp only [snapStart, hcount', h100, next_ringInsertMsg]
      simp
    have hidx100 : ((s.next_index + 1) % 100 + 99) % 100 = s.next_index := by
      rw [Nat.mod_add_mod, Nat.add_assoc]
      show (s.next_index + 100) % 100 = s.next_index
      rw [Nat.add_mod_right, Nat.mod_eq_of_lt h2']
    have hstart : snapStart s = s.next_index := by
      simp [snapStart, hfull]
    have hL : snapshotMessages (ringInsertMsg s m) =
        (List.range 99).map
          (fun i => (ringInsertMsg s m).messages (((s.next_index + 1) % 100 + i) % 100))
          ++ [m] := by
      unfold snapshotMessages
      rw [hcount', hstart', h100]
      rw [show List.range 100 = List.range 99 ++ [99] from List.range_succ 99,
        List.map_append, List.map_cons, List.map_nil]
      try dsimp only
      rw [hidx100, messages_ringInsertMsg, if_pos rfl]
    have hR : (snapshotMessages s).drop 1 =
        (List.range 99).map (fun i => s.messages ((s.next_index + (1 + i)) % 100)) := by
      unfold snapshotMessages
      rw [hstart, hfull, h100]
      rw [show List.range 100 = 0 :: (List.range 99).map Nat.succ from List.range_succ_eq_map 99,
        List.map_cons, List.drop_succ_cons, List.drop_zero, List.map_map]
      apply List.map_congr_left
      intro i hi
      simp only [Function.comp_apply, Nat.succ_eq_add_one]
      rw [Nat.add_comm i 1]
    rw [hL, hR]
    congr 1
    apply List.map_congr_left
    intro i hi
    have hi99 : i < 99 := List.mem_range.mp hi
    have hne100 : ((s.next_index + 1) % 100 + i) % 100 ≠ s.next_index := by
      rw [Nat.mod_add_mod]
      intro heq
      rcases Nat.lt_or_ge (s.next_index + 1 + i) 100 with hlt | hge
      · rw [Nat.mod_eq_of_lt hlt] at heq
        omega
      · have hsub : s.next_index + 1 + i - 100 < 100 := by omega
        rw [Nat.mod_eq_sub_mod hge, Nat.mod_eq_of_lt hsub] at heq
        omega
    try dsimp only
    rw [messages_ringInsertMsg, if_neg hne100, Nat.mod_add_mod, Nat.add_assoc]
  · -- buffer not yet full: the snapshot simply grows by one
    have hc : s.count < MAX_MESSAGES := by omega
    have hnext : s.next_index = s.count := h3 hc
    have hdrop : s.count + 1 - MAX_MESSAGES = 0 := by omega
    rw [hdrop, List.drop_zero]
    have hcount' : (ringInsertMsg s m).count = s.count + 1 := by
      rw [count_ringInsertMsg h1]; omega
    have hstart' : snapStart (ringInsertMsg s m) = 0 := by
      simp only [snapStart, hcount', next_ringInsertMsg]
      by_cases hful : s.count + 1 = MAX_MESSAGES
      · rw [if_pos hful, hnext]
        rw [h100] at hful ⊢
        rw [hful, Nat.mod_self]
      · rw [if_neg hful]
    have hstart : snapStart s = 0 := by
      simp [snapStart, hfull]
    simp only [snapshotMessages, hstart', hcount', List.range_succ, List.map_append,
      List.map_cons, List.map_nil, hstart]
    congr 1
    · -- the first count slots are unchanged
      apply List.map_congr_left
      intro i hi
      have hilt : i < s.count := List.mem_range.mp hi
      have hne : i % MAX_MESSAGES ≠ s.next_index := by
        rw [Nat.mod_eq_of_lt (by omega), hnext]
        omega
      simp [messages_ringInsertMsg, hne]
    · -- the new slot holds the inserted message
      have hidx : s.count % MAX_MESSAGES = s.next_index := by
        rw [Nat.mod_eq_of_lt hc, hnext]
      simp [messages_ringInsertMsg, hidx]

/-- Membership form of the step lemma: the freshly inserted message is always in
the snapshot taken right after the insertion. -/
theorem mem_snapshot_ringInsertMsg {s : ChatStorage} (h : StorageInv s) (m : ChatMessage) :
    m ∈ snapshotMessages (ringInsertMsg s m) := by
  have h100 : MAX_MESSAGES = 100 := rfl
  have h1 := h.1
  rw [snapshot_ringInsertMsg h m,
    List.drop_append_of_le_length (by rw [length_snapshotMessages]; omega)]
  exact List.mem_append_right _ (List.mem_singleton.mpr rfl)

/-- One input to the post path: the request fields plus the time(NULL) sample that
the append observes. -/
structure PostInput where
  uuid : CStr
  username : CStr
  message : CStr
  time : Nat
deriving DecidableEq

/-- The message stored for a given post input. -/
def storedOf (p : PostInput) : ChatMessage :=
  storedMessage p.uuid p.username p.message p.time

/-- A sequence of successful appends, oldest first. -/
def addAll (s : ChatStorage) (ps : List PostInput) : ChatStorage :=
  ps.foldl (fun st p => add_chat_message st p.uuid p.username p.message p.time) s

theorem addAll_append (s : ChatStorage) (ps : List PostInput) (p : PostInput) :
    addAll s (ps ++ [p]) =
      add_chat_message (addAll s ps) p.uuid p.username p.message p.time := by
  simp [addAll, List.foldl_append]

/-- Full characterisation of the state reached from the empty buffer by a sequence
of appends. -/
theorem addAll_spec (ps : List PostInput) :
    (addAll initialStorage ps).count = min ps.length MAX_MESSAGES ∧
    (addAll initialStorage ps).next_index = ps.length % MAX_MESSAGES ∧
    snapshotMessages (addAll initialStorage ps) =
      (ps.map storedOf).drop (ps.length - MAX_MESSAGES) := by
  have h100 : MAX_MESSAGES = 100 := rfl
  induction ps using List.reverseRecOn with
  | nil =>
    refine ⟨by simp [addAll, initialStorage], by simp [addAll, initialStorage, MAX_MESSAGES], ?_⟩
    simp [addAll, snapshotMessages, initialStorage]
  | append_singleton ps p ih =>
    obtain ⟨ihc, ihn, ihs⟩ := ih
    have hinv : StorageInv (addAll initialStorage ps) := by
      refine ⟨by omega, ?_, ?_⟩
      · rw [ihn]; exact Nat.mod_lt _ (by simp [MAX_MESSAGES])
      · intro hlt
        rw [ihc] at hlt
        rw [ihn, ihc]
        rw [h100] at hlt ⊢
        omega
    have hcle : (addAll initialStorage ps).count ≤ MAX_MESSAGES := hinv.1
    rw [addAll_append]
    unfold add_chat_message
    refine ⟨?_, ?_, ?_⟩
    · rw [count_ringInsertMsg hcle, ihc]
      simp only [List.length_append, List.length_cons, List.length_nil, h100]
      omega
    · rw [next_ringInsertMsg, ihn, Nat.mod_add_mod]
      simp only [List.length_append, List.length_cons, List.length_nil]
    · rw [snapshot_ringInsertMsg hinv, ihs, ihc]
      have hmap : (ps ++ [p]).map storedOf = ps.map storedOf ++ [storedOf p] := by
        simp
      rw [hmap]
      by_cases hlen : ps.length < MAX_MESSAGES
      · have e0 : ps.length - MAX_MESSAGES = 0 := by omega
        have e1 : min ps.length MAX_MESSAGES + 1 - MAX_MESSAGES = 0 := by omega
        have e2 : (ps ++ [p]).length - MAX_MESSAGES = 0 := by
          simp only [List.length_append, List.length_cons, List.length_nil]; omega
        rw [e0, e1, e2, List.drop_zero, List.drop_zero, List.drop_zero]
        simp [storedOf]
      · have e1 : min ps.length MAX_MESSAGES + 1 - MAX_MESSAGES = 1 := by omega
        have e2 : (ps ++ [p]).length - MAX_MESSAGES = ps.length - MAX_MESSAGES + 1 := by
          simp only [List.length_append, List.length_cons, List.length_nil]; omega
        rw [e1, e2]
        rw [List.drop_append_of_le_length (by simp only [List.length_drop, List.length_map]; omega),
          List.drop_append_of_le_length (by simp only [List.length_map]; omega),
          List.drop_drop]
        simp [storedOf]

/-- Claim C1: for every sequence of successful appends (chat_storage_add_message /
add_chat_message), including sequences longer than the capacity N = 100, a
subsequent full snapshot (chat_storage_get_messages_json /
get_chat_messages_json) contains exactly min(totalAppends, N) messages, ordered
oldest-to-newest in insertion order (it equals the list of stored messages with
everything before the last N dropped), and once more than N messages have been
appended the oldest appended messages are no longer present. -/
theorem c1_ring_snapshot (ps : List PostInput) :
    (snapshotMessages (addAll initialStorage ps)).length = min ps.length MAX_MESSAGES ∧
    snapshotMessages (addAll initialStorage ps) =
      (ps.map storedOf).drop (ps.length - MAX_MESSAGES) ∧
    ∀ m : ChatMessage, m ∉ (ps.map storedOf).drop (ps.length - MAX_MESSAGES) →
      m ∉ snapshotMessages (addAll initialStorage ps) := by
  obtain ⟨hc, hn, hs⟩ := addAll_spec ps
  refine ⟨?_, hs, ?_⟩
  · rw [length_snapshotMessages, hc]
  · intro m hm
    rw [hs]
    exact hm

/-- Witness for c1_ring_snapshot: after appending 101 distinct messages the first
one is gone from the snapshot. -/
theorem c1_ring_snapshot_witness :
    (⟨[], [], [], 0⟩ : ChatMessage) ∉
      snapshotMessages (addAll initialStorage
        ((List.range 101).map (fun i => ⟨[], [], [], i⟩))) :=
  (c1_ring_snapshot _).2.2 _ (by decide)

/-- Lowercase hex digit, as printed by cJSON's \u escapes. -/
def hexDigit (n : Nat) : Char :=
  if n < 10 then Char.ofNat (48 + n) else Char.ofNat (87 + n)

/-- Fuel-driven decimal rendering (structural recursion so that the kernel can
evaluate it); the fuel never runs out when it exceeds the argument. -/
def natToDecAux (fuel n : Nat) : List Char :=
  match fuel with
  | 0 => []
  | fuel + 1 =>
    if n < 10 then [Char.ofNat (48 + n)]
    else natToDecAux fuel (n / 10) ++ [Char.ofNat (48 + n % 10)]

/-- Decimal rendering of an unsigned integer, the model of printf %lu / cJSON's
integer number printing. -/
def natToDec (n : Nat) : List Char := natToDecAux (n + 1) n

/-- The fuel in natToDecAux is irrelevant as long as it exceeds the argument. -/
theorem natToDecAux_fuel {fuel1 fuel2 n : Nat} (h1 : n < fuel1) (h2 : n < fuel2) :
    natToDecAux fuel1 n = natToDecAux fuel2 n := by
  induction fuel1 generalizing fuel2 n with
  | zero => omega
  | succ f1 ih =>
    cases fuel2 with
    | zero => omega
    | succ f2 =>
      simp only [natToDecAux]
      by_cases h : n < 10
      · rw [if_pos h, if_pos h]
      · rw [if_neg h, if_neg h, @ih f2 (n / 10) (by omega) (by omega)]

theorem natToDec_eq (n : Nat) :
    natToDec n = if n < 10 then [Char.ofNat (48 + n)]
      else natToDec (n / 10) ++ [Char.ofNat (48 + n % 10)] := by
  by_cases h : n < 10
  · rw [if_pos h]
    unfold natToDec natToDecAux
    rw [if_pos h]
  · rw [if_neg h]
    have hstep : natToDecAux (n + 1) n =
        natToDecAux n (n / 10) ++ [Char.ofNat (48 + n % 10)] := by
      simp [natToDecAux, h]
    show natToDecAux (n + 1) n = natToDecAux (n / 10 + 1) (n / 10) ++ _
    rw [hstep]
    congr 1
    exact @natToDecAux_fuel n (n / 10 + 1) (n / 10) (by omega) (by omega)

/-- Model of cJSON's string escaping (print_string_ptr): quote, backslash and the
usual control-character escapes; other control characters become \u00XX. -/
def escChar (c : Char) : List Char :=
  if c = '"' then ['\\', '"']
  else if c = '\\' then ['\\', '\\']
  else if c = Char.ofNat 8 then ['\\', 'b']
  else if c = Char.ofNat 12 then ['\\', 'f']
  else if c = '\n' then ['\\', 'n']
  else if c = Char.ofNat 13 then ['\\', 'r']
  else if c = '\t' then ['\\', 't']
  else if c.toNat < 32 then
    ['\\', 'u', '0', '0', hexDigit (c.toNat / 16), hexDigit (c.toNat % 16)]
  else [c]

/-- cJSON escaping of a whole string value. -/
def escape (s : CStr) : CStr := s.flatMap escChar

/-- A character that needs no cJSON escaping and is not the record delimiter. -/
def jsonPlain (c : Char) : Prop :=
  32 ≤ c.toNat ∧ c ≠ '"' ∧ c ≠ '\\'

instance (c : Char) : Decidable (jsonPlain c) := by
  unfold jsonPlain
  infer_instance

theorem escChar_plain (c : Char) (h : jsonPlain c) : escChar c = [c] := by
  obtain ⟨h32, hq, hb⟩ := h
  unfold escChar
  rw [if_neg hq, if_neg hb,
    if_neg (fun he => absurd h32 (by rw [he]; decide)),
    if_neg (fun he => absurd h32 (by rw [he]; decide)),
    if_neg (fun he => absurd h32 (by rw [he]; decide)),
    if_neg (fun he => absurd h32 (by rw [he]; decide)),
    if_neg (fun he => absurd h32 (by rw [he]; decide)),
    if_neg (by omega)]

theorem escape_plain (s : CStr) (h : ∀ c ∈ s, jsonPlain c) : escape s = s := by
  induction s with
  | nil => rfl
  | cons c cs ih =>
    have hc := escChar_plain c (h c (List.mem_cons_self c cs))
    have hcs := ih (fun d hd => h d (List.mem_cons_of_mem c hd))
    simp [escape, List.flatMap_cons, hc] at hcs ⊢
    exact hcs

/-- cJSON_PrintUnformatted of one message object built with AddStringToObject /
AddNumberToObject in the order uuid, username, message, timestamp
(chat_storage.c:252-255, chat_server.c:214-218 and 92-96, 812-815). -/
def renderMessage (m : ChatMessage) : CStr :=
  "\x7b\"uuid\":\"".data ++ escape m.uuid ++
  "\",\"username\":\"".data ++ escape m.username ++
  "\",\"message\":\"".data ++ escape m.message ++
  "\",\"timestamp\":".data ++ natToDec m.timestamp ++ "\x7d".data

/-- cJSON_PrintUnformatted of the full-history array (chat_storage.c:242-265,
chat_server.c:203-226). -/
def renderMessages (l : List ChatMessage) : CStr :=
  '[' :: List.intercalate ",".data (l.map renderMessage) ++ "]".data

/-- The snapshot-cache state of chat_storage.c: cached_full_messages_json (NULL
modelled as none), cached_full_messages_timestamp and cache_valid (lines 31-33). -/
structure MsgCache where
  payload : Option CStr
  generatedAt : Nat
  valid : Bool
deriving DecidableEq

/-- The zero-initialised cache statics. -/
def initialCache : MsgCache := ⟨none, 0, false⟩

/-- invalidate_cache (chat_storage.c:165-172): frees and clears the payload and
clears the valid flag. -/
def invalidate_cache (c : MsgCache) : MsgCache := ⟨none, c.generatedAt, false⟩

/-- The module-level mutable state of chat_storage.c: the ring buffer, the JSON
cache, and the batching counter new_messages_count (line 36). saves_triggered
counts how many save_chat_history flushes have been triggered, for observation
of the batching policy. -/
structure StorageModule where
  storage : ChatStorage
  cache : MsgCache
  new_messages_count : Nat
  saves_triggered : Nat

/-- Module state right after chat_storage_init with an empty NVS. -/
def initialModule : StorageModule := ⟨initialStorage, initialCache, 0, 0⟩

/-- chat_storage_add_message (chat_storage.c:576-623), success path: ring insert
and counter increment under the lock (582-601), cache invalidation after the
lock is released (604), and when the counter has reached MIN_MESSAGES_TO_SAVE
it is reset to 0 before one asynchronous save task is spawned (607-617). -/
def chat_storage_add_message (st : StorageModule) (uuid username message : CStr)
    (now : Nat) : StorageModule :=
  let storage := add_chat_message st.storage uuid username message now
  let cache := invalidate_cache st.cache
  if MIN_MESSAGES_TO_SAVE ≤ st.new_messages_count + 1 then
    ⟨storage, cache, 0, st.saves_triggered + 1⟩
  else
    ⟨storage, cache, st.new_messages_count + 1, st.saves_triggered⟩

/-- The cache-hit test of chat_storage_get_messages_json (chat_storage.c:186-187):
cache_valid, non-NULL payload, and uint32 age below CACHE_VALID_TIME. Times are
uint32 seconds; the subtraction wraps modulo 2^32. -/
def cacheFresh (c : MsgCache) (now : Nat) : Bool :=
  c.valid && c.payload.isSome &&
    decide ((now + 4294967296 - c.generatedAt) % 4294967296 < CACHE_VALID_TIME)

/-- The cache-miss path of chat_storage_get_messages_json (chat_storage.c:192-277),
allocation-success case: serialize the snapshot, replace the cache with the new
payload stamped with the time read at function entry, and return the string. -/
def regenerateJson (st : StorageModule) (now : Nat) : CStr × StorageModule :=
  let js := renderMessages (snapshotMessages st.storage)
  (js, { st with cache := ⟨some js, now, true⟩ })

/-- chat_storage_get_messages_json (chat_storage.c:182-281), allocation-success
case: on a fresh cache return a strdup copy of the cached payload (line 189,
copy modelled by value semantics), otherwise regenerate and cache. -/
def chat_storage_get_messages_json (st : StorageModule) (now : Nat) :
    CStr × StorageModule :=
  if cacheFresh st.cache now then (st.cache.payload.getD [], st)
  else regenerateJson st now

/-- A sequence of full-snapshot reads at the given times, threading the module
state. -/
def runGets : StorageModule → List Nat → List CStr × StorageModule
  | st, [] => ([], st)
  | st, t :: ts =>
    let r := chat_storage_get_messages_json st t
    let rest := runGets r.2 ts
    (r.1 :: rest.1, rest.2)

/-- A sequence of successful chat_storage_add_message calls, oldest first. -/
def addAllModule (st : StorageModule) (ps : List PostInput) : StorageModule :=
  ps.foldl (fun s p => chat_storage_add_message s p.uuid p.username p.message p.time) st

theorem addAllModule_append (st : StorageModule) (ps : List PostInput) (p : PostInput) :
    addAllModule st (ps ++ [p]) =
      chat_storage_add_message (addAllModule st ps) p.uuid p.username p.message p.time := by
  simp [addAllModule, List.foldl_append]

/-- The counter update of chat_storage_add_message, as a field equation. -/
theorem counter_chat_storage_add_message (st : StorageModule)
    (uuid username message : CStr) (now : Nat) :
    (chat_storage_add_message st uuid username message now).new_messages_count =
      if MIN_MESSAGES_TO_SAVE ≤ st.new_messages_count + 1 then 0
      else st.new_messages_count + 1 := by
  unfold chat_storage_add_message
  split <;> rfl

/-- The flush count of chat_storage_add_message, as a field equation. -/
theorem saves_chat_storage_add_message (st : StorageModule)
    (uuid username message : CStr) (now : Nat) :
    (chat_storage_add_message st uuid username message now).saves_triggered =
      if MIN_MESSAGES_TO_SAVE ≤ st.new_messages_count + 1 then st.saves_triggered + 1
      else st.saves_triggered := by
  unfold chat_storage_add_message
  split <;> rfl

/-- Claim C8: starting from a pendingAppends counter of 0, each successful append
increments the counter by one; after four appends the counter is 4 and no flush
has been triggered; the fifth append triggers exactly one flush and resets the
counter to 0 (before the spawned save task runs), so appends arriving later
count toward the next batch. Stated as the closed form: after any k appends the
counter is k mod 5 and exactly k / 5 flushes have been triggered. -/
theorem c8_persistence_counter (ps : List PostInput) :
    (addAllModule initialModule ps).new_messages_count =
      ps.length % MIN_MESSAGES_TO_SAVE ∧
    (addAllModule initialModule ps).saves_triggered =
      ps.length / MIN_MESSAGES_TO_SAVE := by
  have h5 : MIN_MESSAGES_TO_SAVE = 5 := rfl
  induction ps using List.reverseRecOn with
  | nil => exact ⟨rfl, rfl⟩
  | append_singleton ps p ih =>
    obtain ⟨ihc, ihs⟩ := ih
    rw [addAllModule_append]
    rw [counter_chat_storage_add_message, saves_chat_storage_add_message, ihc, ihs]
    simp only [List.length_append, List.length_cons, List.length_nil, h5]
    constructor
    · split <;> omega
    · split <;> omega

/-- Cache consistency: whenever the valid flag is set, the payload is exactly the
serialization of the current ring-buffer snapshot. -/
def CacheConsistent (st : StorageModule) : Prop :=
  st.cache.valid = true →
    st.cache.payload = some (renderMessages (snapshotMessages st.storage))

theorem get_messages_json_spec (st : StorageModule) (now : Nat)
    (h : CacheConsistent st) :
    (chat_storage_get_messages_json st now).1 =
      renderMessages (snapshotMessages st.storage) ∧
    (chat_storage_get_messages_json st now).2.storage = st.storage ∧
    CacheConsistent (chat_storage_get_messages_json st now).2 := by
  unfold chat_storage_get_messages_json
  by_cases hf : cacheFresh st.cache now
  · have hv : st.cache.valid = true := by
      simp only [cacheFresh, Bool.and_eq_true] at hf
      exact hf.1.1
    have hp := h hv
    rw [if_pos hf]
    exact ⟨by rw [hp]; rfl, rfl, h⟩
  · rw [if_neg hf]
    exact ⟨rfl, rfl, fun _ => rfl⟩

theorem runGets_spec (ts : List Nat) (st : StorageModule) (h : CacheConsistent st) :
    (∀ o ∈ (runGets st ts).1, o = renderMessages (snapshotMessages st.storage)) ∧
    (runGets st ts).2.storage = st.storage ∧ CacheConsistent (runGets st ts).2 := by
  induction ts generalizing st with
  | nil =>
    refine ⟨?_, rfl, h⟩
    intro o ho
    cases ho
  | cons t ts ih =>
    obtain ⟨hget, hst, hcc⟩ := get_messages_json_spec st t h
    obtain ⟨ihall, ihst, ihcc⟩ := ih _ hcc
    refine ⟨?_, ?_, ?_⟩
    · intro o ho
      simp only [runGets, List.mem_cons] at ho
      rcases ho with rfl | ho
      · exact hget
      · rw [ihall o ho, hst]
    · show (runGets (chat_storage_get_messages_json st t).2 ts).2.storage = st.storage
      rw [ihst, hst]
    · exact ihcc

theorem storage_chat_storage_add_message (st : StorageModule)
    (uuid username message : CStr) (now : Nat) :
    (chat_storage_add_message st uuid username message now).storage =
      add_chat_message st.storage uuid username message now := by
  unfold chat_storage_add_message
  split <;> rfl

theorem cache_chat_storage_add_message (st : StorageModule)
    (uuid username message : CStr) (now : Nat) :
    (chat_storage_add_message st uuid username message now).cache =
      invalidate_cache st.cache := by
  unfold chat_storage_add_message
  split <;> rfl

/-- Claim C9: every successful append invalidates the full-snapshot cache (valid
becomes false and the stored payload is dropped) before the function returns —
hence before any subscriber notification by the caller — so every sequence of
cache reads issued after the append returns the serialization of the
post-append log (which contains the appended message); a cache hit returns the
cached payload by value (the strdup copy) and leaves the state unchanged. -/
theorem c9_cache_invalidation (st : StorageModule) (uuid username message : CStr)
    (t : Nat) (ts : List Nat) :
    (chat_storage_add_message st uuid username message t).cache.valid = false ∧
    (chat_storage_add_message st uuid username message t).cache.payload = none ∧
    (∀ o ∈ (runGets (chat_storage_add_message st uuid username message t) ts).1,
      o = renderMessages
        (snapshotMessages (chat_storage_add_message st uuid username message t).storage)) ∧
    (cacheFresh st.cache t = true →
      chat_storage_get_messages_json st t = (st.cache.payload.getD [], st)) ∧
    (StorageInv st.storage →
      storedMessage uuid username message t ∈
        snapshotMessages (chat_storage_add_message st uuid username message t).storage) := by
  have hcache := cache_chat_storage_add_message st uuid username message t
  refine ⟨by rw [hcache]; rfl, by rw [hcache]; rfl, ?_, ?_, ?_⟩
  · have hcc : CacheConsistent (chat_storage_add_message st uuid username message t) := by
      intro hv
      rw [hcache] at hv
      exact absurd hv (by simp [invalidate_cache])
    exact (runGets_spec ts _ hcc).1
  · intro hf
    unfold chat_storage_get_messages_json
    rw [if_pos hf]
  · intro hinv
    rw [storage_chat_storage_add_message]
    exact mem_snapshot_ringInsertMsg hinv _

/-- Concrete module state with a fresh cache, used by the c9 witness. -/
def modC9 : StorageModule := ⟨initialStorage, ⟨some ['x'], 5, true⟩, 0, 0⟩

/-- Witness for c9_cache_invalidation at concrete inputs: a read after the append
returns the post-append serialization, a pre-append fresh cache hit returns the
cached value unchanged, and the stored message is in the post-append snapshot. -/
theorem c9_cache_invalidation_witness :
    ((runGets (chat_storage_add_message modC9 "u".data "n".data "hi".data 5) [6]).1.headI =
      renderMessages
        (snapshotMessages (chat_storage_add_message modC9 "u".data "n".data "hi".data 5).storage)) ∧
    chat_storage_get_messages_json modC9 5 = (['x'], modC9) ∧
    storedMessage "u".data "n".data "hi".data 5 ∈
      snapshotMessages (chat_storage_add_message modC9 "u".data "n".data "hi".data 5).storage :=
  ⟨(c9_cache_invalidation modC9 "u".data "n".data "hi".data 5 [6]).2.2.1 _ (by decide),
   (c9_cache_invalidation modC9 "u".data "n".data "hi".data 5 [6]).2.2.2.1 (by decide),
   (c9_cache_invalidation modC9 "u".data "n".data "hi".data 5 [6]).2.2.2.2 storageInv_initial⟩

/-- sse_client_t (chat_server.c:57-62): HTTP server handle, socket descriptor and
last-activity time; the next pointer is represented by list structure. -/
structure SseClient where
  hd : Nat
  fd : Nat
  last_activity : Nat
deriving DecidableEq

/-- The SSE registry state: the sse_clients linked list, head = most recently
added (insertion at the head, chat_server.c:293-294). The companion counter
sse_client_count is kept equal to the list length by every mutation (add ++,
remove --, cleanup --, notify --), so it is modelled as the list length. -/
structure SseState where
  clients : List SseClient
deriving DecidableEq

/-- sse_client_count (chat_server.c:66). -/
def sse_client_count (s : SseState) : Nat := s.clients.length

/-- Staleness test of cleanup_sse_clients (chat_server.c:247): uint32 age above
300 seconds. -/
def staleB (now la : Nat) : Bool :=
  decide (300 < (now + 4294967296 - la) % 4294967296)

/-- cleanup_sse_clients (chat_server.c:238-266): traverse the list and unlink
every client whose last activity is stale, keeping the relative order of the
survivors. -/
def cleanup_sse_clients (s : SseState) (now : Nat) : SseState :=
  ⟨s.clients.filter (fun c => !staleB now c.last_activity)⟩

/-- Result of an add_sse_client call, distinguishing the three exits of
chat_server.c:276-302. -/
inductive AddResult where
  | added
  | rejectedFull
  | allocFailed
deriving DecidableEq

/-- add_sse_client (chat_server.c:276-302): first sweep stale clients, then
reject when MAX_SSE_CLIENTS are present; otherwise, if malloc succeeds, push
the new client with last_activity = now onto the head of the list. -/
def add_sse_client (s : SseState) (hd fd now : Nat) (allocOk : Bool) :
    SseState × AddResult :=
  if MAX_SSE_CLIENTS ≤ sse_client_count (cleanup_sse_clients s now) then
    (cleanup_sse_clients s now, .rejectedFull)
  else if allocOk then
    (⟨⟨hd, fd, now⟩ :: (cleanup_sse_clients s now).clients⟩, .added)
  else (cleanup_sse_clients s now, .allocFailed)

/-- Unlink of the first client matching fd and hd, as performed by the traversal
in remove_sse_client, which breaks after the first match. -/
def removeFirst (p : SseClient → Bool) : List SseClient → List SseClient
  | [] => []
  | c :: cs => if p c then cs else c :: removeFirst p cs

/-- remove_sse_client (chat_server.c:312-328). -/
def remove_sse_client (s : SseState) (hd fd : Nat) : SseState :=
  ⟨removeFirst (fun c => c.fd == fd && c.hd == hd) s.clients⟩

/-- notify_sse_clients (chat_server.c:499-537): traverse the list; for each
client, if the asprintf allocation fails the client is kept untouched and
skipped; otherwise the framed event is sent: on failure the client is unlinked,
on success its last_activity is set to the time read at function entry. sendOk
and allocOk model the per-client environment outcomes; the second component
collects the clients to which delivery succeeded, in traversal order. -/
def notifyGo (sendOk allocOk : SseClient → Bool) (now : Nat) :
    List SseClient → List SseClient × List SseClient
  | [] => ([], [])
  | c :: cs =>
    let rest := notifyGo sendOk allocOk now cs
    if allocOk c then
      if sendOk c then
        ({ c with last_activity := now } :: rest.1, { c with last_activity := now } :: rest.2)
      else (rest.1, rest.2)
    else (c :: rest.1, rest.2)

/-- notify_sse_clients (chat_server.c:499-537), returning the new registry and
the successfully notified clients. -/
def notify_sse_clients (s : SseState) (sendOk allocOk : SseClient → Bool) (now : Nat) :
    SseState × List SseClient :=
  let r := notifyGo sendOk allocOk now s.clients
  (⟨r.1⟩, r.2)

theorem removeFirst_length_le (p : SseClient → Bool) (l : List SseClient) :
    (removeFirst p l).length ≤ l.length := by
  induction l with
  | nil => simp [removeFirst]
  | cons c cs ih =>
    simp only [removeFirst]
    split
    · simp
    · simpa using Nat.succ_le_succ ih

theorem removeFirst_length_of_mem {p : SseClient → Bool} {l : List SseClient}
    (h : ∃ c ∈ l, p c = true) :
    (removeFirst p l).length = l.length - 1 := by
  induction l with
  | nil => simp at h
  | cons c cs ih =>
    simp only [removeFirst]
    by_cases hc : p c = true
    · rw [if_pos hc]
      simp
    · rw [if_neg hc]
      obtain ⟨d, hd, hpd⟩ := h
      rcases List.mem_cons.mp hd with rfl | hdm
      · exact absurd hpd hc
      · have := ih ⟨d, hdm, hpd⟩
        have hne : cs ≠ [] := by
          intro hcs
          rw [hcs] at hdm
          cases hdm
        have : 0 < cs.length := List.length_pos.mpr hne
        simp only [List.length_cons, ih ⟨d, hdm, hpd⟩]
        omega

theorem notifyGo_eq (sendOk allocOk : SseClient → Bool) (now : Nat)
    (l : List SseClient) (hall : ∀ c ∈ l, allocOk c = true) :
    notifyGo sendOk allocOk now l =
      ((l.filter sendOk).map (fun c => { c with last_activity := now }),
       (l.filter sendOk).map (fun c => { c with last_activity := now })) := by
  induction l with
  | nil => rfl
  | cons c cs ih =>
    have hc : allocOk c = true := hall c (List.mem_cons_self c cs)
    have ihh := ih (fun d hdm => hall d (List.mem_cons_of_mem c hdm))
    simp only [notifyGo, ihh, hc, if_pos]
    by_cases hs : sendOk c = true
    · simp [List.filter_cons, hs]
    · simp only [Bool.not_eq_true] at hs
      simp [List.filter_cons, hs]

/-- Claim C7: for every broadcast over a registry in which delivery fails for some
subset of subscribers (and the per-client buffer allocation succeeds), every
failing subscriber is removed from the registry, every remaining subscriber
still receives the event and stays registered, and every subscriber whose
delivery succeeds has its lastActivity updated to the current time: the new
registry and the successfully notified clients are both exactly the
send-successful clients, in order, with last_activity = now. -/
theorem c7_broadcast_failure_isolation (s : SseState) (sendOk : SseClient → Bool)
    (now : Nat) :
    (notify_sse_clients s sendOk (fun _ => true) now).1.clients =
      (s.clients.filter sendOk).map (fun c => { c with last_activity := now }) ∧
    (notify_sse_clients s sendOk (fun _ => true) now).2 =
      (s.clients.filter sendOk).map (fun c => { c with last_activity := now }) := by
  have h := notifyGo_eq sendOk (fun _ => true) now s.clients (fun _ _ => rfl)
  constructor
  · show (notifyGo sendOk (fun _ => true) now s.clients).1 = _
    rw [h]
  · show (notifyGo sendOk (fun _ => true) now s.clients).2 = _
    rw [h]

/-- Claim C6: the subscriber registry never exceeds MAX_SSE_CLIENTS = 10 entries:
register, unregister, sweep and broadcast all preserve size ≤ 10; a register
attempted while 10 non-stale subscribers are present is rejected and changes
nothing; and after one subscriber is removed — explicitly, or because a stale
subscriber is swept by the registration itself — a subsequent register (with
successful allocation) succeeds. -/
theorem c6_registry_capacity (s : SseState) (hd fd now : Nat)
    (allocOk : Bool) (sendOk : SseClient → Bool) :
    (sse_client_count s ≤ MAX_SSE_CLIENTS →
      sse_client_count (add_sse_client s hd fd now allocOk).1 ≤ MAX_SSE_CLIENTS ∧
      sse_client_count (remove_sse_client s hd fd) ≤ MAX_SSE_CLIENTS ∧
      sse_client_count (cleanup_sse_clients s now) ≤ MAX_SSE_CLIENTS ∧
      sse_client_count (notify_sse_clients s sendOk (fun _ => true) now).1 ≤
        MAX_SSE_CLIENTS) ∧
    (sse_client_count s = MAX_SSE_CLIENTS →
      (∀ c ∈ s.clients, staleB now c.last_activity = false) →
      add_sse_client s hd fd now allocOk = (s, .rejectedFull)) ∧
    (sse_client_count s ≤ MAX_SSE_CLIENTS →
      (∃ c ∈ s.clients, c.fd = fd ∧ c.hd = hd) →
      ∀ hd2 fd2, (add_sse_client (remove_sse_client s hd fd) hd2 fd2 now true).2 = .added) ∧
    (sse_client_count s = MAX_SSE_CLIENTS →
      (∃ c ∈ s.clients, staleB now c.last_activity = true) →
      (add_sse_client s hd fd now true).2 = .added) := by
  have h10 : MAX_SSE_CLIENTS = 10 := rfl
  have hclean : ∀ (t : SseState),
      sse_client_count (cleanup_sse_clients t now) ≤ sse_client_count t := by
    intro t
    exact List.length_filter_le _ _
  refine ⟨?_, ?_, ?_, ?_⟩
  · intro hle
    refine ⟨?_, ?_, ?_, ?_⟩
    · unfold add_sse_client
      split
      · exact le_trans (hclean s) hle
      · split
        · have := hclean s
          simp only [sse_client_count, List.length_cons] at *
          omega
        · exact le_trans (hclean s) hle
    · exact le_trans (removeFirst_length_le _ _) hle
    · exact le_trans (hclean s) hle
    · have h : (notify_sse_clients s sendOk (fun _ => true) now).1.clients =
          (s.clients.filter sendOk).map (fun c => { c with last_activity := now }) := by
        show (notifyGo sendOk (fun _ => true) now s.clients).1 = _
        rw [notifyGo_eq sendOk (fun _ => true) now s.clients (fun _ _ => rfl)]
      simp only [sse_client_count, h, List.length_map]
      exact le_trans (List.length_filter_le _ _) hle
  · intro hfull hact
    have hcl : cleanup_sse_clients s now = s := by
      unfold cleanup_sse_clients
      cases s with
      | mk cl =>
        congr 1
        apply List.filter_eq_self.mpr
        intro c hc
        simp [hact c hc]
    unfold add_sse_client
    rw [hcl, if_pos (le_of_eq hfull.symm)]
  · intro hle hex hd2 fd2
    have hrem : sse_client_count (remove_sse_client s hd fd) = sse_client_count s - 1 := by
      unfold remove_sse_client sse_client_count
      apply removeFirst_length_of_mem
      obtain ⟨c, hc, hcfd, hchd⟩ := hex
      exact ⟨c, hc, by simp [hcfd, hchd]⟩
    unfold add_sse_client
    have hlt : sse_client_count
        (cleanup_sse_clients (remove_sse_client s hd fd) now) < MAX_SSE_CLIENTS := by
      have := hclean (remove_sse_client s hd fd)
      rw [h10] at *
      omega
    rw [if_neg (by omega)]
    simp
  · intro hfull hex
    have hlt : sse_client_count (cleanup_sse_clients s now) < MAX_SSE_CLIENTS := by
      obtain ⟨c, hc, hstale⟩ := hex
      have hsub : (cleanup_sse_clients s now).clients.length < s.clients.length := by
        apply List.length_filter_lt_length_iff_exists.mpr
        exact ⟨c, hc, by simp [hstale]⟩
      simp only [sse_client_count] at *
      omega
    unfold add_sse_client
    rw [if_neg (by omega)]
    simp

/-- Ten distinct fresh clients, used by the c6 witness. -/
def tenClients : SseState :=
  ⟨(List.range 10).map (fun i => ⟨1, i, 100⟩)⟩

/-- Witness for c6_registry_capacity at concrete inputs: with ten fresh clients a
register is rejected without change; after removing one, a register succeeds;
and with one stale client at the capacity limit a register also succeeds. -/
theorem c6_registry_capacity_witness :
    (sse_client_count (add_sse_client tenClients 1 42 100 true).1 ≤ MAX_SSE_CLIENTS) ∧
    add_sse_client tenClients 1 42 100 true = (tenClients, .rejectedFull) ∧
    (add_sse_client (remove_sse_client tenClients 1 3) 1 42 100 true).2 = .added ∧
    (add_sse_client ⟨⟨1, 0, 100⟩ :: (tenClients.clients.drop 1)⟩ 1 42 500 true).2 = .added := by
  refine ⟨((c6_registry_capacity tenClients 1 42 100 true (fun _ => true)).1 (by decide)).1,
    (c6_registry_capacity tenClients 1 42 100 true (fun _ => true)).2.1 (by decide) ?_,
    (c6_registry_capacity tenClients 1 3 100 true (fun _ => true)).2.2.1 (by decide) ?_ 1 42,
    (c6_registry_capacity ⟨⟨1, 0, 100⟩ :: (tenClients.clients.drop 1)⟩ 1 42 500 true
      (fun _ => true)).2.2.2 (by decide) ?_⟩
  · decide
  · decide
  · decide

/-- A cJSON value as far as the handlers inspect one: a string, a number, or
anything else (object, array, bool, null), which only matters as "not a
string". -/
inductive JsonVal where
  | jstr (s : CStr)
  | jnum (n : Int)
  | jother
deriving DecidableEq

/-- cJSON_GetObjectItem: first member whose key matches case-insensitively
(cJSON's default lookup compares with tolower on each byte). -/
def getObjectItem (obj : List (CStr × JsonVal)) (key : CStr) : Option JsonVal :=
  (obj.find? (fun kv => kv.1.map Char.toLower == key.map Char.toLower)).map (fun kv => kv.2)

/-- The field extraction of post_message_handler (chat_server.c:776-785): the
three items must all be present and be strings. -/
def extractFields (obj : List (CStr × JsonVal)) : Option (CStr × CStr × CStr) :=
  match getObjectItem obj "uuid".data, getObjectItem obj "username".data,
      getObjectItem obj "message".data with
  | some (.jstr uuid), some (.jstr username), some (.jstr message) =>
    some (uuid, username, message)
  | _, _, _ => none

/-- A POST /api/chat/message request as the handler observes it: the raw body
length (req->content_len) and the result of cJSON_Parse on the body (none =
parse failure). Any combination is realizable since JSON permits unbounded
insignificant whitespace. -/
structure PostRequest where
  content_len : Nat
  body : Option (List (CStr × JsonVal))

/-- The handler's HTTP outcome: a 400-family client error
(httpd_resp_send_err with HTTPD_400_BAD_REQUEST) or 201 Created. -/
inductive PostResponse where
  | clientError (reason : String)
  | created
deriving DecidableEq

/-- Observable result of post_message_handler: the response, the storage state
after the call, and the notify_sse_clients broadcasts issued (event name,
payload). -/
structure PostOutcome where
  response : PostResponse
  storage : ChatStorage
  broadcasts : List (String × CStr)

/-- post_message_handler (chat_server.c:738-840), success path of the
environment (recv and allocations succeed): reject bodies over 4096 bytes,
unparsable JSON, missing or non-string fields, and field lengths out of bounds
(uuid >= 37, username >= 32, message > 150 or empty); otherwise append via
add_chat_message (which samples time t_add at chat_server.c:693) and broadcast
the message object rebuilt from the request fields with a second time sample
t_notify (chat_server.c:812-815). -/
def post_message_handler (st : ChatStorage) (req : PostRequest) (t_add t_notify : Nat) :
    PostOutcome :=
  if 4096 < req.content_len then ⟨.clientError "Content too large", st, []⟩
  else
    match req.body with
    | none => ⟨.clientError "Invalid JSON", st, []⟩
    | some obj =>
      match extractFields obj with
      | none => ⟨.clientError "Missing required fields", st, []⟩
      | some (uuid, username, message) =>
        if MAX_UUID_LENGTH ≤ uuid.length ∨ MAX_USERNAME_LENGTH ≤ username.length ∨
            MAX_MESSAGE_LENGTH < message.length ∨ message.length = 0 then
          ⟨.clientError "Invalid field length", st, []⟩
        else
          ⟨.created, add_chat_message st uuid username message t_add,
            [("message", renderMessage ⟨uuid, username, message, t_notify⟩)]⟩

/-- Acceptance path of post_message_handler (chat_server.c:738-840): a request
within the 4096-byte limit whose fields are present, strings and within bounds
is accepted, appended via add_chat_message with the first time sample, and the
broadcast payload is rebuilt from the request fields with the second sample. -/
theorem post_handler_accepts (st : ChatStorage) (req : PostRequest) (t1 t2 : Nat)
    (obj : List (CStr × JsonVal)) (uuid username message : CStr)
    (hcl : req.content_len ≤ 4096) (hb : req.body = some obj)
    (hf : extractFields obj = some (uuid, username, message))
    (hu : uuid.length < MAX_UUID_LENGTH) (hn : username.length < MAX_USERNAME_LENGTH)
    (hm0 : 0 < message.length) (hm : message.length ≤ MAX_MESSAGE_LENGTH) :
    post_message_handler st req t1 t2 =
      ⟨.created, add_chat_message st uuid username message t1,
        [("message", renderMessage ⟨uuid, username, message, t2⟩)]⟩ := by
  unfold post_message_handler
  rw [if_neg (by omega), hb]
  dsimp only
  rw [hf]
  dsimp only
  rw [if_neg (by push_neg; exact ⟨hu, hn, hm, by omega⟩)]

/-- The rejection condition exactly as claim C3 states it (spec-following
definition, for comparison with the code): invalid JSON, or a required string
field missing or wrong-typed, or uuid >= 37 chars, or username >= 32 chars, or
the message empty or longer than 150 chars. -/
def c3ClaimRejects (req : PostRequest) : Bool :=
  match req.body with
  | none => true
  | some obj =>
    match extractFields obj with
    | none => true
    | some (uuid, username, message) =>
      decide (MAX_UUID_LENGTH ≤ uuid.length) ||
      decide (MAX_USERNAME_LENGTH ≤ username.length) ||
      decide (message.length = 0) || decide (MAX_MESSAGE_LENGTH < message.length)

/-- An oversized but well-formed request: 5000 raw bytes (whitespace padding)
whose JSON content is a valid message within all field bounds. -/
def c3Request : PostRequest :=
  ⟨5000, some [("uuid".data, .jstr "u".data), ("username".data, .jstr "n".data),
               ("message".data, .jstr "hi".data)]⟩

/-- Counterexample to claim C3 as stated: the handler rejects c3Request with a
client error although the request is none of the claim's rejection cases — the
4096-byte raw-body limit (chat_server.c:743-746) is missing from the claim. -/
theorem c3_counterexample :
    (post_message_handler initialStorage c3Request 0 0).response =
      PostResponse.clientError "Content too large" ∧
    c3ClaimRejects c3Request = false := by
  constructor
  · rfl
  · decide

/-- Claim C3 as amended: the Post endpoint rejects with a client error if and
only if the raw body exceeds 4096 bytes, or the JSON is invalid, or a required
string field is missing or wrong-typed, or a field length is out of bounds; on
every rejection no storage state is mutated and nothing is broadcast; and every
request within the 4096-byte limit whose fields are present, strings and within
bounds is accepted and appended. -/
theorem c3_post_validation (st : ChatStorage) (req : PostRequest) (t1 t2 : Nat) :
    ((∃ e, (post_message_handler st req t1 t2).response = PostResponse.clientError e) ↔
      (4096 < req.content_len ∨ c3ClaimRejects req = true)) ∧
    ((post_message_handler st req t1 t2).response ≠ .created →
      (post_message_handler st req t1 t2).storage = st ∧
      (post_message_handler st req t1 t2).broadcasts = []) ∧
    (∀ obj uuid username message,
      req.content_len ≤ 4096 →
      req.body = some obj →
      extractFields obj = some (uuid, username, message) →
      uuid.length < MAX_UUID_LENGTH → username.length < MAX_USERNAME_LENGTH →
      0 < message.length → message.length ≤ MAX_MESSAGE_LENGTH →
      post_message_handler st req t1 t2 =
        ⟨.created, add_chat_message st uuid username message t1,
          [("message", renderMessage ⟨uuid, username, message, t2⟩)]⟩) := by
  unfold post_message_handler c3ClaimRejects
  by_cases hlen : 4096 < req.content_len
  · rw [if_pos hlen]
    refine ⟨⟨fun _ => Or.inl hlen, fun _ => ⟨_, rfl⟩⟩, fun _ => ⟨rfl, rfl⟩, ?_⟩
    intro obj uuid username message hcl
    omega
  · rw [if_neg hlen]
    cases hbody : req.body with
    | none =>
      refine ⟨⟨fun _ => Or.inr rfl, fun _ => ⟨_, rfl⟩⟩, fun _ => ⟨rfl, rfl⟩, ?_⟩
      intro obj uuid username message _ hb
      cases hb
    | some obj =>
      dsimp only
      cases hf : extractFields obj with
      | none =>
        refine ⟨⟨fun _ => Or.inr rfl, fun _ => ⟨_, rfl⟩⟩, fun _ => ⟨rfl, rfl⟩, ?_⟩
        intro obj2 uuid username message _ hb hf2
        injection hb with hb
        rw [← hb] at hf2
        rw [hf] at hf2
        cases hf2
      | some fields =>
        obtain ⟨uuid, username, message⟩ := fields
        dsimp only
        by_cases hv : MAX_UUID_LENGTH ≤ uuid.length ∨ MAX_USERNAME_LENGTH ≤ username.length ∨
            MAX_MESSAGE_LENGTH < message.length ∨ message.length = 0
        · rw [if_pos hv]
          refine ⟨⟨fun _ => Or.inr ?_, fun _ => ⟨_, rfl⟩⟩, fun _ => ⟨rfl, rfl⟩, ?_⟩
          · simp only [Bool.or_eq_true, decide_eq_true_eq]
            tauto
          · intro obj2 uuid2 username2 message2 _ hb hf2 hu2 hn2 hm02 hm2
            injection hb with hb
            rw [← hb] at hf2
            rw [hf] at hf2
            injection hf2 with hf2
            simp only [Prod.mk.injEq] at hf2
            obtain ⟨rfl, rfl, rfl⟩ := hf2
            exact absurd hv (by push_neg; exact ⟨by omega, by omega, by omega, by omega⟩)
        · rw [if_neg hv]
          push_neg at hv
          obtain ⟨hu, hn, hm, hm0⟩ := hv
          refine ⟨⟨?_, ?_⟩, ?_, ?_⟩
          · rintro ⟨e, he⟩
            cases he
          · rintro (h | h)
            · omega
            · simp only [Bool.or_eq_true, decide_eq_true_eq] at h
              omega
          · intro hne
            exact absurd rfl hne
          · intro obj2 uuid2 username2 message2 _ hb hf2 _ _ _ _
            injection hb with hb
            rw [← hb] at hf2
            rw [hf] at hf2
            injection hf2 with hf2
            simp only [Prod.mk.injEq] at hf2
            obtain ⟨rfl, rfl, rfl⟩ := hf2
            rfl

/-- Witness for c3_post_validation at a concrete in-bounds request: accepted,
appended, and a single broadcast issued. -/
theorem c3_post_validation_witness :
    post_message_handler initialStorage
        ⟨60, some [("uuid".data, .jstr "u".data), ("username".data, .jstr "n".data),
                   ("message".data, .jstr "hi".data)]⟩ 3 4 =
      ⟨.created, add_chat_message initialStorage "u".data "n".data "hi".data 3,
        [("message", renderMessage ⟨"u".data, "n".data, "hi".data, 4⟩)]⟩ :=
  (c3_post_validation initialStorage _ 3 4).2.2 _ "u".data "n".data "hi".data
    (by decide) rfl (by decide) (by decide) (by decide) (by decide) (by decide)

/-- Claim C10 (implicit): for every input accepted by the Post validation, the
append stores each field as a NUL-terminated string fitting its fixed slot: at
most 36 characters of uuid, 31 of username and 149 of the message are retained
by strlcpy; uuid and username therefore survive verbatim, the message is stored
as its 149-character prefix, and a body of exactly 150 characters — which
passes validation — is stored and snapshotted truncated rather than verbatim. -/
theorem c10_field_truncation (st : ChatStorage) (uuid username message : CStr) (t : Nat)
    (hu : uuid.length < MAX_UUID_LENGTH) (hn : username.length < MAX_USERNAME_LENGTH)
    (hm0 : 0 < message.length) (hm : message.length ≤ MAX_MESSAGE_LENGTH) :
    (add_chat_message st uuid username message t).messages st.next_index =
      ⟨uuid, username, message.take (MAX_MESSAGE_LENGTH - 1), t⟩ ∧
    (storedMessage uuid username message t).uuid.length ≤ MAX_UUID_LENGTH - 1 ∧
    (storedMessage uuid username message t).username.length ≤ MAX_USERNAME_LENGTH - 1 ∧
    (storedMessage uuid username message t).message.length ≤ MAX_MESSAGE_LENGTH - 1 ∧
    (message.length = MAX_MESSAGE_LENGTH →
      (storedMessage uuid username message t).message ≠ message) ∧
    (StorageInv st →
      storedMessage uuid username message t ∈
        snapshotMessages (add_chat_message st uuid username message t)) := by
  have huu : strlcpy uuid MAX_UUID_LENGTH = uuid :=
    List.take_of_length_le (by simp only [MAX_UUID_LENGTH] at *; omega)
  have hnn : strlcpy username MAX_USERNAME_LENGTH = username :=
    List.take_of_length_le (by simp only [MAX_USERNAME_LENGTH] at *; omega)
  have hstored : storedMessage uuid username message t =
      ⟨uuid, username, message.take (MAX_MESSAGE_LENGTH - 1), t⟩ := by
    simp only [storedMessage, huu, hnn]
    rfl
  refine ⟨?_, ?_, ?_, ?_, ?_, ?_⟩
  · have hslot : (add_chat_message st uuid username message t).messages st.next_index =
        storedMessage uuid username message t := by
      simp [add_chat_message, ringInsertMsg]
    rw [hslot, hstored]
  · simp only [storedMessage, strlcpy, List.length_take]
    omega
  · simp only [storedMessage, strlcpy, List.length_take]
    omega
  · simp only [storedMessage, strlcpy, List.length_take]
    omega
  · intro h150
    simp only [storedMessage, strlcpy]
    intro heq
    have := congrArg List.length heq
    simp only [List.length_take] at this
    simp only [MAX_MESSAGE_LENGTH] at *
    omega
  · intro hinv
    exact mem_snapshot_ringInsertMsg hinv _

/-- Witness for c10_field_truncation: a 150-character body passes validation but
is stored as its 149-character prefix and snapshotted truncated. -/
theorem c10_field_truncation_witness :
    (storedMessage "u".data "n".data (List.replicate 150 'a') 7).message ≠
      List.replicate 150 'a' ∧
    storedMessage "u".data "n".data (List.replicate 150 'a') 7 ∈
      snapshotMessages (add_chat_message initialStorage "u".data "n".data
        (List.replicate 150 'a') 7) :=
  ⟨(c10_field_truncation initialStorage "u".data "n".data (List.replicate 150 'a') 7
      (by decide) (by decide) (by decide) (by decide)).2.2.2.2.1 (by decide),
   (c10_field_truncation initialStorage "u".data "n".data (List.replicate 150 'a') 7
      (by decide) (by decide) (by decide) (by decide)).2.2.2.2.2 storageInv_initial⟩

/-- A request with a 150-character body, within all validation bounds. -/
def c2Request : PostRequest :=
  ⟨200, some [("uuid".data, .jstr "u".data), ("username".data, .jstr "n".data),
              ("message".data, .jstr (List.replicate 150 'a'))]⟩

/-- Counterexample to claim C2 as stated: even with both time(NULL) samples equal,
the accepted 150-character post stores a 149-character truncation
(chat_server.c:692 strlcpy with MAX_MESSAGE_LENGTH) while the broadcast payload
serializes the untruncated request field (chat_server.c:812-815), so the
broadcast is not the serialization of the appended message. -/
theorem c2_counterexample :
    (post_message_handler initialStorage c2Request 7 7).response = .created ∧
    (post_message_handler initialStorage c2Request 7 7).broadcasts =
      [("message", renderMessage ⟨"u".data, "n".data, List.replicate 150 'a', 7⟩)] ∧
    (post_message_handler initialStorage c2Request 7 7).storage.messages 0 =
      storedMessage "u".data "n".data (List.replicate 150 'a') 7 ∧
    renderMessage ((post_message_handler initialStorage c2Request 7 7).storage.messages 0) ≠
      ((post_message_handler initialStorage c2Request 7 7).broadcasts.headI).2 := by
  have hout : post_message_handler initialStorage c2Request 7 7 =
      ⟨.created, add_chat_message initialStorage "u".data "n".data (List.replicate 150 'a') 7,
        [("message", renderMessage ⟨"u".data, "n".data, List.replicate 150 'a', 7⟩)]⟩ :=
    post_handler_accepts initialStorage c2Request 7 7 _ "u".data "n".data
      (List.replicate 150 'a') (by decide) rfl rfl (by decide) (by decide)
      (by decide) (by decide)
  have hmsg : (add_chat_message initialStorage "u".data "n".data
        (List.replicate 150 'a') 7).messages 0 =
      storedMessage "u".data "n".data (List.replicate 150 'a') 7 := rfl
  refine ⟨by rw [hout], by rw [hout], by rw [hout]; exact hmsg, ?_⟩
  rw [hout]
  show renderMessage ((add_chat_message initialStorage "u".data "n".data
      (List.replicate 150 'a') 7).messages 0) ≠
    renderMessage ⟨"u".data, "n".data, List.replicate 150 'a', 7⟩
  rw [hmsg]
  intro heq
  have hl := congrArg List.length heq
  have htake : strlcpy (List.replicate 150 'a') MAX_MESSAGE_LENGTH =
      List.replicate 149 'a' := by
    show List.take 149 (List.replicate 150 'a') = List.replicate 149 'a'
    rw [List.take_replicate]
    congr 1
  have hplain : ∀ (n : Nat), ∀ c ∈ List.replicate n 'a', jsonPlain c := by
    intro n c hc
    rw [List.eq_of_mem_replicate hc]
    decide
  have hesc149 : escape (List.replicate 149 'a') = List.replicate 149 'a' :=
    escape_plain _ (hplain 149)
  have hesc150 : escape (List.replicate 150 'a') = List.replicate 150 'a' :=
    escape_plain _ (hplain 150)
  have hu' : strlcpy "u".data MAX_UUID_LENGTH = "u".data := by decide
  have hn' : strlcpy "n".data MAX_USERNAME_LENGTH = "n".data := by decide
  simp only [renderMessage, storedMessage, htake, hesc149, hesc150, hu', hn',
    List.length_append, List.length_replicate] at hl
  omega

/-- Claim C2 as amended: for every successful Post the broadcast payload under
event name "message" serializes the request's uuid, username and body verbatim
with the handler's own time sample; when the two time(NULL) samples coincide
and the body is at most 149 characters (uuid at most 36 and username at most
31, which validation already guarantees), the payload is exactly the
serialization of the message appended to the log, serialized once. -/
theorem c2_broadcast_payload (st : ChatStorage) (req : PostRequest)
    (obj : List (CStr × JsonVal)) (uuid username message : CStr) (t : Nat)
    (hcl : req.content_len ≤ 4096) (hbody : req.body = some obj)
    (hf : extractFields obj = some (uuid, username, message))
    (hu : uuid.length < MAX_UUID_LENGTH) (hn : username.length < MAX_USERNAME_LENGTH)
    (hm0 : 0 < message.length) (hm : message.length ≤ MAX_MESSAGE_LENGTH - 1) :
    (post_message_handler st req t t).response = .created ∧
    (post_message_handler st req t t).storage =
      ringInsertMsg st (storedMessage uuid username message t) ∧
    (post_message_handler st req t t).broadcasts =
      [("message", renderMessage (storedMessage uuid username message t))] := by
  have hout := post_handler_accepts st req t t obj uuid username message hcl hbody hf
    hu hn hm0 (by simp only [MAX_MESSAGE_LENGTH] at *; omega)
  have huu : strlcpy uuid MAX_UUID_LENGTH = uuid :=
    List.take_of_length_le (by simp only [MAX_UUID_LENGTH] at *; omega)
  have hnn : strlcpy username MAX_USERNAME_LENGTH = username :=
    List.take_of_length_le (by simp only [MAX_USERNAME_LENGTH] at *; omega)
  have hmm : strlcpy message MAX_MESSAGE_LENGTH = message :=
    List.take_of_length_le (by simp only [MAX_MESSAGE_LENGTH] at *; omega)
  have hstored : storedMessage uuid username message t =
      ⟨uuid, username, message, t⟩ := by
    simp [storedMessage, huu, hnn, hmm]
  rw [hout]
  refine ⟨rfl, rfl, ?_⟩
  rw [hstored]

/-- Witness for c2_broadcast_payload at a concrete in-bounds request. -/
theorem c2_broadcast_payload_witness :
    (post_message_handler initialStorage
        ⟨60, some [("uuid".data, .jstr "u".data), ("username".data, .jstr "n".data),
                   ("message".data, .jstr "hey".data)]⟩ 9 9).broadcasts =
      [("message", renderMessage (storedMessage "u".data "n".data "hey".data 9))] :=
  (c2_broadcast_payload initialStorage _ _ "u".data "n".data "hey".data 9
    (by decide) rfl (by decide) (by decide) (by decide) (by decide) (by decide)).2.2

/-- The load loop of chat_storage_init (chat_storage.c:541-550) processed up to
iteration n: record i, when it loads, is written into slot i % MAX_MESSAGES and
bumps loaded_count; a failed record is skipped, leaving its slot untouched.
rec models the per-index outcome of load_message_from_nvs against the NVS
contents. -/
def initLoadMem (rec : Nat → Option ChatMessage) : Nat → (Nat → ChatMessage) × Nat
  | 0 => (fun _ => zeroMessage, 0)
  | n + 1 =>
    let r := initLoadMem rec n
    match rec n with
    | some m => (fun j => if j = n % MAX_MESSAGES then m else r.1 j, r.2 + 1)
    | none => r

/-- chat_storage_init (chat_storage.c:519-563): when the stored msg_count is
positive, load records 0 .. min(msg_count, MAX_MESSAGES) - 1, then set count to
the number of successful loads and next_index to count % MAX_MESSAGES
(lines 552-554); the function reports success regardless of failed records. -/
def chat_storage_init (msg_count : Int) (rec : Nat → Option ChatMessage) :
    ChatStorage :=
  if 0 < msg_count then
    { messages := (initLoadMem rec (min msg_count.toNat MAX_MESSAGES)).1
      count := (initLoadMem rec (min msg_count.toNat MAX_MESSAGES)).2
      next_index := (initLoadMem rec (min msg_count.toNat MAX_MESSAGES)).2 % MAX_MESSAGES }
  else initialStorage

/-- Number of records the init loop visits. -/
def loadBound (msg_count : Int) : Nat :=
  if 0 < msg_count then min msg_count.toNat MAX_MESSAGES else 0

/-- A record set in which index 0 fails to load and index 1 loads. -/
def recC5 : Nat → Option ChatMessage :=
  fun i => if i = 1 then some ⟨"a".data, "b".data, "c".data, 1⟩ else none

/-- Counterexample to claim C5 as stated: with msg_count = 2, record 0 failing
and record 1 loading, count is 1 as claimed, but the snapshot returns the
untouched zero slot 0 instead of the successfully loaded message — the loop
writes record i to slot i while count only reflects successes, so the loaded
message at slot 1 is beyond the snapshot. -/
theorem c5_counterexample :
    (chat_storage_init 2 recC5).count = 1 ∧
    snapshotMessages (chat_storage_init 2 recC5) = [zeroMessage] ∧
    snapshotMessages (chat_storage_init 2 recC5) ≠
      [(⟨"a".data, "b".data, "c".data, 1⟩ : ChatMessage)] ∧
    (⟨"a".data, "b".data, "c".data, 1⟩ : ChatMessage) ∉
      snapshotMessages (chat_storage_init 2 recC5) := by
  refine ⟨?_, ?_, ?_, ?_⟩ <;> decide

theorem initLoadMem_loaded (rec : Nat → Option ChatMessage) (n : Nat) :
    (initLoadMem rec n).2 =
      ((List.range n).filter (fun i => (rec i).isSome)).length := by
  induction n with
  | zero => rfl
  | succ n ih =>
    rw [List.range_succ, List.filter_append]
    simp only [initLoadMem]
    cases hr : rec n with
    | none => simp [hr, ih]
    | some m => simp [hr, ih]

theorem initLoadMem_slot (rec : Nat → Option ChatMessage) (n : Nat)
    (hn : n ≤ MAX_MESSAGES) (j : Nat) :
    (initLoadMem rec n).1 j =
      if j < n then (rec j).getD zeroMessage else zeroMessage := by
  have h100 : MAX_MESSAGES = 100 := rfl
  induction n with
  | zero => simp [initLoadMem]
  | succ n ih =>
    simp only [initLoadMem]
    have hnn : n % MAX_MESSAGES = n := Nat.mod_eq_of_lt (by omega)
    cases hr : rec n with
    | none =>
      rw [ih (by omega)]
      by_cases hj : j < n
      · rw [if_pos hj, if_pos (by omega)]
      · rw [if_neg hj]
        by_cases hj2 : j < n + 1
        · have : j = n := by omega
          subst this
          rw [if_pos hj2, hr]
          rfl
        · rw [if_neg hj2]
    | some m =>
      simp only [hnn]
      by_cases hj : j = n
      · subst hj
        rw [if_pos rfl, if_pos (by omega), hr]
        rfl
      · rw [if_neg hj, ih (by omega)]
        by_cases hj2 : j < n
        · rw [if_pos hj2, if_pos (by omega)]
        · rw [if_neg hj2, if_neg (by omega)]

theorem filter_range_front (p : Nat → Bool) (n k : Nat) (hk : k ≤ n)
    (hp : ∀ i, i < n → (p i = true ↔ i < k)) :
    (List.range n).filter p = List.range k := by
  induction n generalizing k with
  | zero =>
    have : k = 0 := by omega
    subst this
    rfl
  | succ n ih =>
    rw [List.range_succ, List.filter_append]
    by_cases hkn : k = n + 1
    · subst hkn
      have hn : p n = true := (hp n (by omega)).mpr (by omega)
      rw [List.range_succ]
      have hfil : (List.range n).filter p = List.range n := by
        rw [ih n (by omega) (fun i hi => ⟨fun _ => hi, fun _ => (hp i (by omega)).mpr (by omega)⟩)]
      rw [hfil]
      simp [hn]
    · have hk' : k ≤ n := by omega
      have hn : p n = false := by
        have := hp n (by omega)
        rcases hpn : p n with _ | _
        · rfl
        · exact absurd (this.mp hpn) (by omega)
      rw [ih k hk' (fun i hi => hp i (by omega))]
      simp [hn]

theorem filterMap_range_front (rec : Nat → Option ChatMessage) (n k : Nat)
    (hk : k ≤ n) (hp : ∀ i, i < n → ((rec i).isSome = true ↔ i < k)) :
    (List.range n).filterMap rec =
      (List.range k).map (fun i => (rec i).getD zeroMessage) := by
  induction n generalizing k with
  | zero =>
    have : k = 0 := by omega
    subst this
    rfl
  | succ n ih =>
    rw [List.range_succ, List.filterMap_append]
    by_cases hkn : k = n + 1
    · subst hkn
      have hn : (rec n).isSome = true := (hp n (by omega)).mpr (by omega)
      obtain ⟨m, hm⟩ := Option.isSome_iff_exists.mp hn
      rw [List.range_succ, List.map_append,
        ih n (by omega) (fun i hi => ⟨fun _ => hi, fun _ => (hp i (by omega)).mpr (by omega)⟩)]
      simp [hm]
    · have hk' : k ≤ n := by omega
      have hn : rec n = none := by
        rcases hrn : rec n with _ | m
        · rfl
        · have : (rec n).isSome = true := by simp [hrn]
          exact absurd ((hp n (by omega)).mp this) (by omega)
      rw [ih k hk' (fun i hi => hp i (by omega))]
      simp [hn]

/-- Claim C5: after startup restoration in which some of the msg_count persisted
records fail to load, the log's count equals exactly the number of records that
loaded successfully and no error is reported (init is modelled as total);
moreover — this is the part the code only honours when the failures form a
suffix of the indices — if the successful loads are exactly the indices below
some k, the full snapshot returns exactly the successfully loaded messages in
their original insertion order. -/
theorem c5_startup_restore (msg_count : Int) (rec : Nat → Option ChatMessage) :
    (chat_storage_init msg_count rec).count =
      ((List.range (loadBound msg_count)).filter (fun i => (rec i).isSome)).length ∧
    ∀ k, k ≤ loadBound msg_count →
      (∀ i, i < loadBound msg_count → ((rec i).isSome = true ↔ i < k)) →
      snapshotMessages (chat_storage_init msg_count rec) =
        (List.range (loadBound msg_count)).filterMap rec := by
  have h100 : MAX_MESSAGES = 100 := rfl
  by_cases hpos : 0 < msg_count
  · have hbound : loadBound msg_count = min msg_count.toNat MAX_MESSAGES := by
      simp [loadBound, hpos]
    have hinit : chat_storage_init msg_count rec =
        { messages := (initLoadMem rec (loadBound msg_count)).1
          count := (initLoadMem rec (loadBound msg_count)).2
          next_index := (initLoadMem rec (loadBound msg_count)).2 % MAX_MESSAGES } := by
      rw [hbound]
      simp [chat_storage_init, hpos]
    have hnle : loadBound msg_count ≤ MAX_MESSAGES := by
      rw [hbound]; omega
    constructor
    · rw [hinit, initLoadMem_loaded]
    · intro k hk hp
      have hcount : (initLoadMem rec (loadBound msg_count)).2 = k := by
        rw [initLoadMem_loaded, filter_range_front _ _ k hk hp, List.length_range]
      have hstart : snapStart (chat_storage_init msg_count rec) = 0 := by
        rw [hinit]
        unfold snapStart
        simp only [hcount]
        split
        · rename_i hEq
          simp only [MAX_MESSAGES] at hEq ⊢
          omega
        · rfl
      rw [filterMap_range_front rec _ k hk hp]
      unfold snapshotMessages
      rw [hstart, hinit]
      simp only [hcount]
      apply List.map_congr_left
      intro i hi
      have hik : i < k := List.mem_range.mp hi
      have hi100 : (0 + i) % MAX_MESSAGES = i := by
        rw [h100] at *
        omega
      rw [hi100, initLoadMem_slot rec _ hnle, if_pos (by omega)]
  · have hbound : loadBound msg_count = 0 := by simp [loadBound, hpos]
    have hinit : chat_storage_init msg_count rec = initialStorage := by
      simp [chat_storage_init, hpos]
    rw [hbound, hinit]
    refine ⟨rfl, ?_⟩
    intro k hk hp
    rfl

/-- Record set for the c5 witness: indices 0 and 1 load, index 2 fails. -/
def recC5w : Nat → Option ChatMessage :=
  fun i => if i < 2 then some ⟨"a".data, "b".data, "c".data, i⟩ else none

/-- Witness for c5_startup_restore: three persisted records of which the last
fails to load give count 2 and a snapshot of exactly the two loaded messages. -/
theorem c5_startup_restore_witness :
    (chat_storage_init 3 recC5w).count =
      ((List.range (loadBound 3)).filter (fun i => (recC5w i).isSome)).length ∧
    snapshotMessages (chat_storage_init 3 recC5w) =
      (List.range (loadBound 3)).filterMap recC5w :=
  ⟨(c5_startup_restore 3 recC5w).1,
   (c5_startup_restore 3 recC5w).2 2 (by decide) (by decide)⟩

/-- isdigit test used to model the digit loops of strtol and cJSON. -/
def isDigitC (c : Char) : Bool := decide (48 ≤ c.toNat) && decide (c.toNat ≤ 57)

/-- Numeric value of a digit character. -/
def digVal (c : Char) : Nat := c.toNat - 48

/-- Characters skipped by strtol's isspace test. -/
def isSpaceC (c : Char) : Bool :=
  decide (c.toNat = 32) || (decide (9 ≤ c.toNat) && decide (c.toNat ≤ 13))

/-- The digit loop of strtol for a non-negative parse, saturating at INT32_MAX:
atoi on the ESP32 (newlib, 32-bit long) is (int)strtol(s, NULL, 10). -/
def atoiDigitsPos (acc : Nat) : List Char → Nat
  | [] => acc
  | c :: cs =>
    if isDigitC c then atoiDigitsPos (min (acc * 10 + digVal c) 2147483647) cs else acc

/-- Digit loop for a negated parse, saturating at the magnitude of INT32_MIN. -/
def atoiDigitsNeg (acc : Nat) : List Char → Nat
  | [] => acc
  | c :: cs =>
    if isDigitC c then atoiDigitsNeg (min (acc * 10 + digVal c) 2147483648) cs else acc

/-- Model of atoi on the target platform: skip whitespace, optional sign, digits,
saturating in int32. -/
def atoi (s : List Char) : Int :=
  match s.dropWhile isSpaceC with
  | '-' :: rest => -(atoiDigitsNeg 0 rest : Int)
  | '+' :: rest => (atoiDigitsPos 0 rest : Int)
  | rest => (atoiDigitsPos 0 rest : Int)

/-- The C cast (uint32_t)i of a signed value. -/
def toUInt32Nat (i : Int) : Nat := (i % 4294967296).toNat

/-- save_message_to_nvs (chat_storage.c:52-63): the record is
uuid|username|message|timestamp, rendered by snprintf "%s|%s|%s|%lu" into a
251-byte buffer, which cannot truncate any record whose fields fit their slots
(at most 36+31+149 field bytes, 3 bars and 10 timestamp digits). -/
def save_message_to_nvs (m : ChatMessage) : CStr :=
  m.uuid ++ '|' :: m.username ++ '|' :: m.message ++ '|' :: natToDec m.timestamp

/-- strchr(buf, w): split at the first bar, as used by the simple-format parse of
load_message_from_nvs (chat_storage.c:96-121). -/
def strchrBar : List Char → Option (CStr × CStr)
  | [] => none
  | c :: cs =>
    if c = '|' then some ([], cs)
    else (strchrBar cs).map (fun p => (c :: p.1, p.2))

/-- The simple-format branch of load_message_from_nvs (chat_storage.c:96-121):
three bar-splits give uuid, username and message (each strlcpy-truncated into
its slot) and the remainder is parsed with atoi and cast to uint32. -/
def parseSimple (buf : CStr) : Option ChatMessage :=
  match strchrBar buf with
  | none => none
  | some (u, r1) =>
    match strchrBar r1 with
    | none => none
    | some (nm, r2) =>
      match strchrBar r2 with
      | none => none
      | some (ms, ts) =>
        some { uuid := strlcpy u MAX_UUID_LENGTH
               username := strlcpy nm MAX_USERNAME_LENGTH
               message := strlcpy ms MAX_MESSAGE_LENGTH
               timestamp := toUInt32Nat (atoi ts) }

theorem toNat_charOfNat (n : Nat) (h : n < 55296) : (Char.ofNat n).toNat = n := by
  unfold Char.ofNat
  rw [dif_pos (by left; exact h)]
  unfold Char.ofNatAux Char.toNat
  simp [UInt32.toNat, BitVec.toNat_ofNatLt]

theorem strchrBar_append (u : CStr) (hu : '|' ∉ u) (r : CStr) :
    strchrBar (u ++ '|' :: r) = some (u, r) := by
  induction u with
  | nil => simp [strchrBar]
  | cons c cs ih =>
    have hc : ¬c = '|' := fun h => hu (h ▸ List.mem_cons_self c cs)
    have hcs : '|' ∉ cs := fun h => hu (List.mem_cons_of_mem c h)
    simp only [List.cons_append, strchrBar, if_neg hc, List.append_eq]
    rw [ih hcs]
    rfl

theorem strchrBar_none (l : CStr) (h : '|' ∉ l) : strchrBar l = none := by
  induction l with
  | nil => rfl
  | cons c cs ih =>
    have hc : ¬c = '|' := fun hh => h (hh ▸ List.mem_cons_self c cs)
    have hcs : '|' ∉ cs := fun hh => h (List.mem_cons_of_mem c hh)
    simp [strchrBar, hc, ih hcs]

/-- Value of a digit string, most significant first. -/
def digitsVal (l : List Char) : Nat := l.foldl (fun a c => a * 10 + digVal c) 0

theorem foldl_digits_ge (l : List Char) (acc : Nat) :
    acc ≤ l.foldl (fun a c => a * 10 + digVal c) acc := by
  induction l generalizing acc with
  | nil => simp
  | cons c cs ih =>
    simp only [List.foldl_cons]
    calc acc ≤ acc * 10 + digVal c := by omega
    _ ≤ _ := ih _

theorem atoiDigitsPos_eq (l : List Char) (hd : ∀ c ∈ l, isDigitC c = true) (acc : Nat)
    (hle : l.foldl (fun a c => a * 10 + digVal c) acc ≤ 2147483647) :
    atoiDigitsPos acc l = l.foldl (fun a c => a * 10 + digVal c) acc := by
  induction l generalizing acc with
  | nil => rfl
  | cons c cs ih =>
    have hc : isDigitC c = true := hd c (List.mem_cons_self c cs)
    simp only [atoiDigitsPos, if_pos hc, List.foldl_cons]
    have hstep : acc * 10 + digVal c ≤ 2147483647 := by
      have := foldl_digits_ge cs (acc * 10 + digVal c)
      simp only [List.foldl_cons] at hle
      omega
    rw [min_eq_left hstep]
    exact ih (fun d hdm => hd d (List.mem_cons_of_mem c hdm)) _
      (by simpa using hle)

theorem natToDec_all_digits (n : Nat) : ∀ c ∈ natToDec n, isDigitC c = true := by
  induction n using Nat.strong_induction_on with
  | _ n ih =>
    rw [natToDec_eq]
    by_cases h : n < 10
    · rw [if_pos h]
      intro c hc
      rw [List.mem_singleton] at hc
      subst hc
      simp only [isDigitC, toNat_charOfNat (48 + n) (by omega), Bool.and_eq_true,
        decide_eq_true_eq]
      omega
    · rw [if_neg h]
      intro c hc
      rcases List.mem_append.mp hc with hm | hm
      · exact ih (n / 10) (by omega) c hm
      · rw [List.mem_singleton] at hm
        subst hm
        have hlt : n % 10 < 10 := Nat.mod_lt _ (by omega)
        simp only [isDigitC, toNat_charOfNat (48 + n % 10) (by omega), Bool.and_eq_true,
          decide_eq_true_eq]
        omega

theorem natToDec_ne_nil (n : Nat) : natToDec n ≠ [] := by
  rw [natToDec_eq]
  split
  · simp
  · simp

theorem digitsVal_natToDec (n : Nat) : digitsVal (natToDec n) = n := by
  induction n using Nat.strong_induction_on with
  | _ n ih =>
    rw [natToDec_eq]
    by_cases h : n < 10
    · rw [if_pos h]
      simp only [digitsVal, List.foldl_cons, List.foldl_nil, digVal,
        toNat_charOfNat (48 + n) (by omega)]
      omega
    · rw [if_neg h]
      simp only [digitsVal, List.foldl_append, List.foldl_cons, List.foldl_nil]
      have := ih (n / 10) (by omega)
      simp only [digitsVal] at this
      rw [this]
      have hlt : n % 10 < 10 := Nat.mod_lt _ (by omega)
      simp only [digVal, toNat_charOfNat (48 + n % 10) (by omega)]
      omega

theorem atoi_natToDec (n : Nat) (h : n ≤ 2147483647) : atoi (natToDec n) = n := by
  obtain ⟨c, rest, hcons⟩ := List.exists_cons_of_ne_nil (natToDec_ne_nil n)
  have hdig : isDigitC c = true := by
    have := natToDec_all_digits n c
    rw [hcons] at this
    exact this (List.mem_cons_self c rest)
  have hcn : 48 ≤ c.toNat ∧ c.toNat ≤ 57 := by
    simpa [isDigitC] using hdig
  have hnospace : isSpaceC c = false := by
    simp only [isSpaceC, Bool.or_eq_false_iff, Bool.and_eq_false_iff]
    constructor
    · simp only [decide_eq_false_iff_not]
      omega
    · right
      simp only [decide_eq_false_iff_not]
      omega
  have hdrop : (natToDec n).dropWhile isSpaceC = c :: rest := by
    rw [hcons, List.dropWhile_cons, hnospace]
    simp
  unfold atoi
  rw [hdrop]
  have hminus : ¬c = '-' := by
    intro hcm
    subst hcm
    simp at hcn
  have hplus : ¬c = '+' := by
    intro hcm
    subst hcm
    simp at hcn
  have hpos : atoiDigitsPos 0 (c :: rest) = n := by
    have hall : ∀ d ∈ c :: rest, isDigitC d = true := by
      rw [← hcons]
      exact natToDec_all_digits n
    have hfold : (c :: rest).foldl (fun a d => a * 10 + digVal d) 0 = n := by
      have := digitsVal_natToDec n
      rw [hcons] at this
      exact this
    rw [atoiDigitsPos_eq _ hall 0 (by rw [hfold]; exact h), hfold]
  split
  · rename_i r heq
    injection heq with h1 h2
    exact absurd h1 hminus
  · rename_i r heq
    injection heq with h1 h2
    exact absurd h1 hplus
  · rw [hpos]

/-- Whitespace skipped by cJSON between tokens. -/
def jsonWs (c : Char) : Bool :=
  decide (c.toNat = 32) || decide (c.toNat = 9) || decide (c.toNat = 10) ||
    decide (c.toNat = 13)

/-- skip_whitespace of cJSON. -/
def skipWs (l : List Char) : List Char := l.dropWhile jsonWs

/-- The escape sequences cJSON's string parser understands (the records at hand
never use \u escapes, which are left unmodelled). -/
def unescapeChar (e : Char) : Option Char :=
  if e = '"' then some '"'
  else if e = '\\' then some '\\'
  else if e = '/' then some '/'
  else if e = 'b' then some (Char.ofNat 8)
  else if e = 'f' then some (Char.ofNat 12)
  else if e = 'n' then some '\n'
  else if e = 'r' then some (Char.ofNat 13)
  else if e = 't' then some '\t'
  else none

/-- cJSON's parse_string after the opening quote: collect characters until the
closing quote, resolving escapes; fuel bounds the recursion and never runs out
when it exceeds the input length. -/
def parseStringBody (fuel : Nat) (l : List Char) : Option (CStr × List Char) :=
  match fuel with
  | 0 => none
  | fuel + 1 =>
    match l with
    | [] => none
    | c :: rest =>
      if c = '"' then some ([], rest)
      else if c = '\\' then
        match rest with
        | [] => none
        | e :: rest2 =>
          match unescapeChar e, parseStringBody fuel rest2 with
          | some u, some (s, r) => some (u :: s, r)
          | _, _ => none
      else
        match parseStringBody fuel rest with
        | some (s, r) => some (c :: s, r)
        | none => none

/-- cJSON's parse_number restricted to integers (the persisted records only
carry integer timestamps): optional minus sign then decimal digits. -/
def parseNumber (l : List Char) : Option (Int × List Char) :=
  match l with
  | [] => none
  | c :: rest =>
    if c = '-' then
      if rest.takeWhile isDigitC = [] then none
      else some (-(digitsVal (rest.takeWhile isDigitC) : Int), rest.dropWhile isDigitC)
    else
      if l.takeWhile isDigitC = [] then none
      else some ((digitsVal (l.takeWhile isDigitC) : Int), l.dropWhile isDigitC)

/-- cJSON's parse_value restricted to the member values the persisted records
contain: strings and integer numbers. -/
def parseValue (l : List Char) : Option (JsonVal × List Char) :=
  match l with
  | [] => none
  | c :: rest =>
    if c = '"' then
      match parseStringBody rest.length rest with
      | some (s, r) => some (.jstr s, r)
      | none => none
    else
      match parseNumber l with
      | some (v, r) => some (.jnum v, r)
      | none => none

/-- cJSON's parse_object member loop, after the opening brace of a non-empty
object: a quoted key, a colon, a value, then either a comma and further members
or the closing brace. Fuel bounds the member count and never runs out when it
exceeds the input length. -/
def parseMembers (fuel : Nat) (l : List Char) : Option (List (CStr × JsonVal) × List Char) :=
  match fuel with
  | 0 => none
  | fuel + 1 =>
    match skipWs l with
    | [] => none
    | c :: rest =>
      if c = '"' then
        match parseStringBody rest.length rest with
        | some (key, r1) =>
          match skipWs r1 with
          | [] => none
          | d :: r2 =>
            if d = ':' then
              match parseValue (skipWs r2) with
              | some (v, r3) =>
                match skipWs r3 with
                | [] => none
                | e :: r4 =>
                  if e = ',' then
                    match parseMembers fuel r4 with
                    | some (ms, r5) => some ((key, v) :: ms, r5)
                    | none => none
                  else if e = Char.ofNat 125 then some ([(key, v)], r4)
                  else none
              | none => none
            else none
        | none => none
      else none

/-- cJSON_Parse restricted to the shape of the persisted records: a flat object
of string and integer members (a top-level value of any other kind makes every
subsequent GetObjectItem return NULL, so the load fails either way); trailing
bytes after the closing brace are ignored as cJSON does not require a
terminated input here. -/
def cJSON_Parse (buf : CStr) : Option (List (CStr × JsonVal)) :=
  match skipWs buf with
  | [] => none
  | c :: rest =>
    if c = Char.ofNat 123 then
      match skipWs rest with
      | [] => none
      | d :: _ =>
        if d = Char.ofNat 125 then some []
        else
          match parseMembers (rest.length + 1) rest with
          | some (ms, _) => some ms
          | none => none
    else none

/-- The valuestring field of a cJSON item: present only for strings. The C code
dereferences it unchecked (chat_storage.c:138-140); on a non-string item it is
NULL and the strlcpy would fault, so the model returns failure there. -/
def valuestringOf : JsonVal → Option CStr
  | .jstr s => some s
  | _ => none

/-- The valueint field of a cJSON item: the parsed number saturated to int32,
0 for non-numbers. -/
def valueintOf : JsonVal → Int
  | .jnum n =>
    if n > 2147483647 then 2147483647
    else if n < -2147483648 then -2147483648
    else n
  | _ => 0

/-- load_message_from_nvs (chat_storage.c:72-149): try the bar-separated simple
format first; if it does not yield three separators, fall back to the older
JSON encoding: parse, require the four items present, copy the three strings
with strlcpy and take valueint of the timestamp cast to uint32. -/
def load_message_from_nvs (buf : CStr) : Option ChatMessage :=
  match parseSimple buf with
  | some m => some m
  | none =>
    match cJSON_Parse buf with
    | none => none
    | some obj =>
      match getObjectItem obj "uuid".data, getObjectItem obj "username".data,
          getObjectItem obj "message".data, getObjectItem obj "timestamp".data with
      | some uo, some no, some mo, some tso =>
        match valuestringOf uo, valuestringOf no, valuestringOf mo with
        | some u, some nm, some ms =>
          some { uuid := strlcpy u MAX_UUID_LENGTH
                 username := strlcpy nm MAX_USERNAME_LENGTH
                 message := strlcpy ms MAX_MESSAGE_LENGTH
                 timestamp := toUInt32Nat (valueintOf tso) }
        | _, _, _ => none
      | _, _, _, _ => none

/-- save_message_to_nvs of the older revision (chat_server.c:87-109): the record
is the cJSON_PrintUnformatted serialization of the message object, i.e. exactly
the wire serialization renderMessage. -/
def save_message_to_nvs_old (m : ChatMessage) : CStr := renderMessage m

/-- A message whose username contains the record delimiter. -/
def c4BadMessage : ChatMessage := ⟨"a".data, "b|c".data, "d".data, 1⟩

/-- Counterexample to claim C4 as stated: a message within all length bounds
whose username contains a bar does not round-trip — the delimiter-separated
record "a|b|c|d|1" re-parses into uuid "a", username "b", message "c" and
timestamp atoi("d|1") = 0. -/
theorem c4_counterexample :
    load_message_from_nvs (save_message_to_nvs c4BadMessage) =
      some ⟨"a".data, "b".data, "c".data, 0⟩ ∧
    load_message_from_nvs (save_message_to_nvs c4BadMessage) ≠ some c4BadMessage := by
  constructor
  · decide
  · decide

theorem uint32_of_nat (n : Nat) (h : n < 4294967296) : toUInt32Nat (n : Int) = n := by
  unfold toUInt32Nat
  rw [Int.emod_eq_of_lt (Int.natCast_nonneg n) (by exact_mod_cast h), Int.toNat_natCast]

/-- Round trip of the current delimiter-separated encoding for records whose
fields are free of the bar delimiter and whose timestamp parses back within
int32 range. -/
theorem parseSimple_save (m : ChatMessage) (hu : '|' ∉ m.uuid) (hn : '|' ∉ m.username)
    (hm : '|' ∉ m.message) (hul : m.uuid.length ≤ MAX_UUID_LENGTH - 1)
    (hnl : m.username.length ≤ MAX_USERNAME_LENGTH - 1)
    (hml : m.message.length ≤ MAX_MESSAGE_LENGTH - 1)
    (ht : m.timestamp ≤ 2147483647) :
    parseSimple (save_message_to_nvs m) = some m := by
  unfold save_message_to_nvs parseSimple
  simp only [List.append_assoc, List.cons_append]
  rw [strchrBar_append _ hu]
  dsimp only
  rw [strchrBar_append _ hn]
  dsimp only
  rw [strchrBar_append _ hm]
  dsimp only
  have h1 : strlcpy m.uuid MAX_UUID_LENGTH = m.uuid :=
    List.take_of_length_le (by simp only [MAX_UUID_LENGTH] at *; omega)
  have h2 : strlcpy m.username MAX_USERNAME_LENGTH = m.username :=
    List.take_of_length_le (by simp only [MAX_USERNAME_LENGTH] at *; omega)
  have h3 : strlcpy m.message MAX_MESSAGE_LENGTH = m.message :=
    List.take_of_length_le (by simp only [MAX_MESSAGE_LENGTH] at *; omega)
  have h4 : toUInt32Nat (atoi (natToDec m.timestamp)) = m.timestamp := by
    rw [atoi_natToDec _ ht, uint32_of_nat _ (by omega)]
  simp only [h1, h2, h3, h4]

theorem skipWs_cons (c : Char) (l : List Char) (hc : jsonWs c = false) :
    skipWs (c :: l) = c :: l := by
  simp [skipWs, List.dropWhile_cons, hc]

theorem parseStringBody_spec (s : CStr) (r : List Char) (fuel : Nat)
    (hq : '"' ∉ s) (hb : '\\' ∉ s) (hf : s.length < fuel) :
    parseStringBody fuel (s ++ '"' :: r) = some (s, r) := by
  induction s generalizing fuel with
  | nil =>
    cases fuel with
    | zero => omega
    | succ f => rfl
  | cons c cs ih =>
    cases fuel with
    | zero => omega
    | succ f =>
      have hc : ¬c = '"' := fun h => hq (h ▸ List.mem_cons_self c cs)
      have hcb : ¬c = '\\' := fun h => hb (h ▸ List.mem_cons_self c cs)
      have hq2 : '"' ∉ cs := fun h => hq (List.mem_cons_of_mem c h)
      have hb2 : '\\' ∉ cs := fun h => hb (List.mem_cons_of_mem c h)
      simp only [List.cons_append, parseStringBody, if_neg hc, if_neg hcb]
      rw [ih f hq2 hb2 (by simp at hf ⊢; omega)]

theorem takeWhile_all_append (p : Char → Bool) (l1 : List Char)
    (h1 : ∀ c ∈ l1, p c = true) (c : Char) (hc : p c = false) (l2 : List Char) :
    (l1 ++ c :: l2).takeWhile p = l1 ∧ (l1 ++ c :: l2).dropWhile p = c :: l2 := by
  induction l1 with
  | nil =>
    simp [List.takeWhile_cons, List.dropWhile_cons, hc]
  | cons d ds ih =>
    have hd : p d = true := h1 d (List.mem_cons_self d ds)
    have hds := ih (fun e he => h1 e (List.mem_cons_of_mem d he))
    simp [List.takeWhile_cons, List.dropWhile_cons, hd, hds.1, hds.2]

theorem parseMembers_strMember (f : Nat) (key s rest2 : CStr)
    (hkq : '"' ∉ key) (hkb : '\\' ∉ key) (hsq : '"' ∉ s) (hsb : '\\' ∉ s) :
    parseMembers (f + 1) ('"' :: (key ++ '"' :: ':' :: '"' :: (s ++ '"' :: ',' :: rest2))) =
      match parseMembers f rest2 with
      | some (ms, r5) => some ((key, JsonVal.jstr s) :: ms, r5)
      | none => none := by
  simp only [parseMembers]
  rw [skipWs_cons _ _ (by decide)]
  try dsimp only
  rw [if_pos rfl]
  rw [parseStringBody_spec key _ _ hkq hkb (by simp [List.length_append] <;> omega)]
  try dsimp only
  rw [skipWs_cons _ _ (by decide)]
  try dsimp only
  rw [if_pos rfl]
  rw [skipWs_cons _ _ (by decide)]
  simp only [parseValue]
  try dsimp only
  simp only [if_true]
  rw [parseStringBody_spec s _ _ hsq hsb (by simp [List.length_append] <;> omega)]
  try dsimp only
  rw [skipWs_cons _ _ (by decide)]
  try dsimp only
  rw [if_pos rfl]

theorem parseMembers_numMember (f : Nat) (key : CStr) (t : Nat) (r4 : CStr)
    (hkq : '"' ∉ key) (hkb : '\\' ∉ key) :
    parseMembers (f + 1) ('"' :: (key ++ '"' :: ':' :: (natToDec t ++ Char.ofNat 125 :: r4))) =
      some ([(key, JsonVal.jnum (t : Int))], r4) := by
  obtain ⟨c, cs, hcons⟩ := List.exists_cons_of_ne_nil (natToDec_ne_nil t)
  have hdig : isDigitC c = true := by
    have := natToDec_all_digits t c
    rw [hcons] at this
    exact this (List.mem_cons_self c cs)
  have hcn : 48 ≤ c.toNat ∧ c.toNat ≤ 57 := by simpa [isDigitC] using hdig
  simp only [parseMembers]
  rw [skipWs_cons _ _ (by decide)]
  try dsimp only
  rw [if_pos rfl]
  rw [parseStringBody_spec key _ _ hkq hkb (by simp [List.length_append] <;> omega)]
  try dsimp only
  rw [skipWs_cons _ _ (by decide)]
  try dsimp only
  rw [if_pos rfl]
  rw [hcons, List.cons_append]
  rw [skipWs_cons _ _ (by
    simp only [jsonWs, Bool.or_eq_false_iff, decide_eq_false_iff_not]
    omega)]
  simp only [parseValue]
  try dsimp only
  rw [if_neg (by intro hcq; rw [hcq] at hcn; simp at hcn <;> omega)]
  simp only [parseNumber]
  try dsimp only
  rw [if_neg (by intro hcm; rw [hcm] at hcn; simp at hcn <;> omega)]
  rw [← List.cons_append, ← hcons]
  have hstop := takeWhile_all_append isDigitC (natToDec t) (natToDec_all_digits t)
    (Char.ofNat 125) (by decide) r4
  rw [hstop.1, hstop.2]
  rw [if_neg (by simpa using natToDec_ne_nil t)]
  have hval : digitsVal (natToDec t) = t := digitsVal_natToDec t
  rw [hval]
  try dsimp only
  rw [skipWs_cons _ _ (by decide)]
  try dsimp only
  rw [if_neg (by decide), if_pos rfl]

theorem parseMembers_strMemberF (fuel : Nat) (hf : 1 ≤ fuel) (key s rest2 : CStr)
    (hkq : '"' ∉ key) (hkb : '\\' ∉ key) (hsq : '"' ∉ s) (hsb : '\\' ∉ s) :
    parseMembers fuel ('"' :: (key ++ '"' :: ':' :: '"' :: (s ++ '"' :: ',' :: rest2))) =
      match parseMembers (fuel - 1) rest2 with
      | some (ms, r5) => some ((key, JsonVal.jstr s) :: ms, r5)
      | none => none := by
  obtain ⟨f, rfl⟩ : ∃ f, fuel = f + 1 := ⟨fuel - 1, by omega⟩
  simpa using parseMembers_strMember f key s rest2 hkq hkb hsq hsb

theorem parseMembers_numMemberF (fuel : Nat) (hf : 1 ≤ fuel) (key : CStr) (t : Nat)
    (r4 : CStr) (hkq : '"' ∉ key) (hkb : '\\' ∉ key) :
    parseMembers fuel ('"' :: (key ++ '"' :: ':' :: (natToDec t ++ Char.ofNat 125 :: r4))) =
      some ([(key, JsonVal.jnum (t : Int))], r4) := by
  obtain ⟨f, rfl⟩ : ∃ f, fuel = f + 1 := ⟨fuel - 1, by omega⟩
  exact parseMembers_numMember f key t r4 hkq hkb

/-- Parsing a record produced by the old JSON writer recovers exactly the four
members, provided no field needs escaping. -/
theorem cJSON_Parse_render (m : ChatMessage)
    (hju : ∀ c ∈ m.uuid, jsonPlain c) (hjn : ∀ c ∈ m.username, jsonPlain c)
    (hjm : ∀ c ∈ m.message, jsonPlain c) :
    cJSON_Parse (renderMessage m) =
      some [("uuid".data, .jstr m.uuid), ("username".data, .jstr m.username),
            ("message".data, .jstr m.message),
            ("timestamp".data, .jnum (m.timestamp : Int))] := by
  have l1 : "\x7b\"uuid\":\"".data =
      Char.ofNat 123 :: '"' :: ("uuid".data ++ ['"', ':', '"']) := by decide
  have l2 : "\",\"username\":\"".data =
      '"' :: ',' :: '"' :: ("username".data ++ ['"', ':', '"']) := by decide
  have l3 : "\",\"message\":\"".data =
      '"' :: ',' :: '"' :: ("message".data ++ ['"', ':', '"']) := by decide
  have l4 : "\",\"timestamp\":".data =
      '"' :: ',' :: '"' :: ("timestamp".data ++ ['"', ':']) := by decide
  have l5 : "\x7d".data = [Char.ofNat 125] := by decide
  have hshape : renderMessage m =
      Char.ofNat 123 :: '"' :: ("uuid".data ++ '"' :: ':' :: '"' :: (m.uuid ++ '"' :: ',' ::
        ('"' :: ("username".data ++ '"' :: ':' :: '"' :: (m.username ++ '"' :: ',' ::
          ('"' :: ("message".data ++ '"' :: ':' :: '"' :: (m.message ++ '"' :: ',' ::
            ('"' :: ("timestamp".data ++ '"' :: ':' ::
              (natToDec m.timestamp ++ Char.ofNat 125 :: []))))))))))) := by
    unfold renderMessage
    rw [escape_plain _ hju, escape_plain _ hjn, escape_plain _ hjm, l1, l2, l3, l4, l5]
    simp only [List.cons_append, List.append_assoc, List.nil_append]
  rw [hshape]
  unfold cJSON_Parse
  rw [skipWs_cons _ _ (by decide)]
  try dsimp only
  rw [if_pos rfl]
  rw [skipWs_cons _ _ (by decide)]
  try dsimp only
  rw [if_neg (by decide)]
  rw [parseMembers_strMemberF _ (by omega) "uuid".data m.uuid _ (by decide) (by decide)
    (fun hc => (hju _ hc).2.1 rfl) (fun hc => (hju _ hc).2.2 rfl)]
  rw [parseMembers_strMemberF _ (by simp [List.length_append] <;> omega) "username".data
    m.username _ (by decide) (by decide)
    (fun hc => (hjn _ hc).2.1 rfl) (fun hc => (hjn _ hc).2.2 rfl)]
  rw [parseMembers_strMemberF _ (by simp [List.length_append] <;> omega) "message".data
    m.message _ (by decide) (by decide)
    (fun hc => (hjm _ hc).2.1 rfl) (fun hc => (hjm _ hc).2.2 rfl)]
  rw [parseMembers_numMemberF _ (by simp [List.length_append] <;> omega) "timestamp".data
    m.timestamp [] (by decide) (by decide)]

/-- Claim C4 as amended: the persistence encoding round-trips — loading the
record written by save_message_to_nvs yields the original message, and
load_message_from_nvs also accepts records written by the older JSON encoder —
provided no field contains the record delimiter, the timestamp is within int32
range (atoi on the 32-bit target saturates at INT32_MAX), and, for the JSON
part, no field contains characters that cJSON would escape. -/
theorem c4_persistence_round_trip (m : ChatMessage)
    (hu : '|' ∉ m.uuid) (hn : '|' ∉ m.username) (hm : '|' ∉ m.message)
    (hul : m.uuid.length ≤ MAX_UUID_LENGTH - 1)
    (hnl : m.username.length ≤ MAX_USERNAME_LENGTH - 1)
    (hml : m.message.length ≤ MAX_MESSAGE_LENGTH - 1)
    (ht : m.timestamp ≤ 2147483647) :
    load_message_from_nvs (save_message_to_nvs m) = some m ∧
    ((∀ c ∈ m.uuid, jsonPlain c) → (∀ c ∈ m.username, jsonPlain c) →
      (∀ c ∈ m.message, jsonPlain c) →
      load_message_from_nvs (save_message_to_nvs_old m) = some m) := by
  constructor
  · unfold load_message_from_nvs
    rw [parseSimple_save m hu hn hm hul hnl hml ht]
  · intro hju hjn hjm
    have hdigbar : '|' ∉ natToDec m.timestamp := by
      intro hd
      exact absurd (natToDec_all_digits m.timestamp _ hd) (by decide)
    have hnotbar : '|' ∉ renderMessage m := by
      unfold renderMessage
      rw [escape_plain _ hju, escape_plain _ hjn, escape_plain _ hjm]
      intro hmem
      simp only [List.mem_append, List.mem_cons] at hmem
      rcases hmem with ((((((((h | h) | h) | h) | h) | h) | h) | h) | h)
      · exact absurd h (by decide)
      · exact hu h
      · exact absurd h (by decide)
      · exact hn h
      · exact absurd h (by decide)
      · exact hm h
      · exact absurd h (by decide)
      · exact hdigbar h
      · exact absurd h (by decide)
    have hps : parseSimple (save_message_to_nvs_old m) = none := by
      unfold parseSimple save_message_to_nvs_old
      rw [strchrBar_none _ hnotbar]
    unfold load_message_from_nvs
    rw [hps]
    try dsimp only
    unfold save_message_to_nvs_old
    rw [cJSON_Parse_render m hju hjn hjm]
    try dsimp only
    rw [show getObjectItem
        [("uuid".data, .jstr m.uuid), ("username".data, .jstr m.username),
         ("message".data, .jstr m.message), ("timestamp".data, .jnum (m.timestamp : Int))]
        "uuid".data = some (JsonVal.jstr m.uuid) from rfl]
    rw [show getObjectItem
        [("uuid".data, .jstr m.uuid), ("username".data, .jstr m.username),
         ("message".data, .jstr m.message), ("timestamp".data, .jnum (m.timestamp : Int))]
        "username".data = some (JsonVal.jstr m.username) from rfl]
    rw [show getObjectItem
        [("uuid".data, .jstr m.uuid), ("username".data, .jstr m.username),
         ("message".data, .jstr m.message), ("timestamp".data, .jnum (m.timestamp : Int))]
        "message".data = some (JsonVal.jstr m.message) from rfl]
    rw [show getObjectItem
        [("uuid".data, .jstr m.uuid), ("username".data, .jstr m.username),
         ("message".data, .jstr m.message), ("timestamp".data, .jnum (m.timestamp : Int))]
        "timestamp".data = some (JsonVal.jnum (m.timestamp : Int)) from rfl]
    try dsimp only
    have h1 : strlcpy m.uuid MAX_UUID_LENGTH = m.uuid :=
      List.take_of_length_le (by simp only [MAX_UUID_LENGTH] at *; omega)
    have h2 : strlcpy m.username MAX_USERNAME_LENGTH = m.username :=
      List.take_of_length_le (by simp only [MAX_USERNAME_LENGTH] at *; omega)
    have h3 : strlcpy m.message MAX_MESSAGE_LENGTH = m.message :=
      List.take_of_length_le (by simp only [MAX_MESSAGE_LENGTH] at *; omega)
    have hvi : valueintOf (JsonVal.jnum (m.timestamp : Int)) = (m.timestamp : Int) := by
      simp only [valueintOf]
      rw [if_neg (by omega), if_neg (by omega)]
    have hts : toUInt32Nat (m.timestamp : Int) = m.timestamp :=
      uint32_of_nat _ (by omega)
    simp only [valuestringOf, hvi, hts, h1, h2, h3]

/-- Witness for c4_persistence_round_trip: a concrete message round-trips
through both the current and the older persisted encoding. -/
theorem c4_persistence_round_trip_witness :
    load_message_from_nvs (save_message_to_nvs ⟨"u1".data, "alice".data, "hello".data, 99⟩) =
      some ⟨"u1".data, "alice".data, "hello".data, 99⟩ ∧
    load_message_from_nvs (save_message_to_nvs_old ⟨"u1".data, "alice".data, "hello".data, 99⟩) =
      some ⟨"u1".data, "alice".data, "hello".data, 99⟩ :=
  ⟨(c4_persistence_round_trip ⟨"u1".data, "alice".data, "hello".data, 99⟩
      (by decide) (by decide) (by decide) (by decide) (by decide) (by decide) (by decide)).1,
   (c4_persistence_round_trip ⟨"u1".data, "alice".data, "hello".data, 99⟩
      (by decide) (by decide) (by decide) (by decide) (by decide) (by decide) (by decide)).2
      (by decide) (by decide) (by decide)⟩
